import Mathlib

/-!
Verification development for the Intrinio real-time Go SDK (equities and
options market-data client).

The Go source is shallowly embedded:
* Go `float64`/`float32` scalar values (prices, timestamps in seconds) are
  modelled as `ℚ`; the source only compares and adds/divides these values,
  so rational arithmetic mirrors the float semantics on the inputs considered.
* Go pointers `*float64` are modelled by `FloatPtr` (an allocation address
  paired with the pointed-to value); `nil` is `Option.none`.  Go compares
  such pointers by address, which `goPtrEq` mirrors.
* Go strings (ASCII byte slices here) are modelled as `List Char`.
* Go maps are modelled as functions into `Option`; mutation is explicit
  state passing.  A method that mutates its receiver returns the updated
  value, paired with its Go return value.
* Scheduling an observer callback (`go func() { ... callback(...) }()`) is
  modelled by counting scheduled invocations: the callback-variant setters
  return the number of goroutines they would spawn.  A registered (non-nil)
  callback is a `Bool` flag.
-/

/-- Go `*float64`: an allocation address together with the pointed-to value.
Two live Go pointers are equal iff their addresses are equal. -/
structure FloatPtr where
  addr : Nat
  val : ℚ
deriving DecidableEq

/-- Go pointer comparison `p == q` on `*float64` (nil is `none`):
compares addresses, never the pointed-to values. -/
def goPtrEq : Option FloatPtr → Option FloatPtr → Bool
  | none, none => true
  | some p, some q => p.addr == q.addr
  | _, _ => false

/-- `intrinio.OptionTrade` (options.go). -/
structure OptionTrade where
  ContractId : List Char
  Exchange : Nat
  Price : ℚ
  Size : Nat
  Qualifiers : Nat × Nat × Nat × Nat
  TotalVolume : Nat
  AskPriceAtExecution : ℚ
  BidPriceAtExecution : ℚ
  UnderlyingPriceAtExecution : ℚ
  Timestamp : ℚ
deriving DecidableEq

/-- `intrinio.OptionQuote` (options.go). -/
structure OptionQuote where
  ContractId : List Char
  AskPrice : ℚ
  BidPrice : ℚ
  AskSize : Nat
  BidSize : Nat
  Timestamp : ℚ
deriving DecidableEq

/-- `intrinio.OptionRefresh` (options.go). -/
structure OptionRefresh where
  ContractId : List Char
  OpenInterest : Nat
  OpenPrice : ℚ
  ClosePrice : ℚ
  HighPrice : ℚ
  LowPrice : ℚ
deriving DecidableEq

/-- `composite.OptionsUnusualActivity` (composite types file). -/
structure OptionsUnusualActivity where
  Contract : List Char
  Exchange : List Char
  TypeTag : List Char
  Sentiment : List Char
  Price : ℚ
  Size : Nat
  Timestamp : ℚ
  UnderlyingPrice : ℚ
deriving DecidableEq

/-- `composite.OptionsTradeCandleStick`. -/
structure OptionsTradeCandleStick where
  Contract : List Char
  Exchange : List Char
  Open : ℚ
  High : ℚ
  Low : ℚ
  Close : ℚ
  Volume : Nat
  Timestamp : ℚ
  Interval : List Char
deriving DecidableEq

/-- `composite.OptionsQuoteCandleStick`; `Type` is the Go string-typed
`composite.QuoteType` (`"ask"` / `"bid"`). -/
structure OptionsQuoteCandleStick where
  Contract : List Char
  Exchange : List Char
  TypeTag : List Char
  Open : ℚ
  High : ℚ
  Low : ℚ
  Close : ℚ
  Volume : Nat
  Timestamp : ℚ
  Interval : List Char
deriving DecidableEq

/-- `composite.QuoteTypeAsk = "ask"`. -/
def QuoteTypeAsk : List Char := ['a', 's', 'k']

/-- `composite.QuoteTypeBid = "bid"`. -/
def QuoteTypeBid : List Char := ['b', 'i', 'd']

/-- `intrinio.EquityTrade` (equities.go); `MarketCenter` keeps the raw
code point, `Price` the decoded value. -/
structure EquityTrade where
  Symbol : List Char
  Source : Nat
  MarketCenter : Nat
  Price : ℚ
  Size : Nat
  TotalVolume : Nat
  Timestamp : ℚ
  Conditions : List Char
deriving DecidableEq

/-- `intrinio.EquityQuote`; `Type` is the `uint8` with `ASK = 1`, `BID = 2`. -/
structure EquityQuote where
  TypeTag : Nat
  Symbol : List Char
  Source : Nat
  MarketCenter : Nat
  Price : ℚ
  Size : Nat
  Timestamp : ℚ
  Conditions : List Char
deriving DecidableEq

/-- `intrinio.ASK`. -/
def ASK : Nat := 1

/-- `intrinio.BID`. -/
def BID : Nat := 2

/-- `composite.TradeCandleStick` (equities); its Go `time.Time` timestamp is
modelled as seconds (`t1.After t2` is `>` on these). -/
structure TradeCandleStick where
  Symbol : List Char
  Open : ℚ
  High : ℚ
  Low : ℚ
  Close : ℚ
  Volume : Nat
  Timestamp : ℚ
  Interval : List Char
deriving DecidableEq

/-- `composite.QuoteCandleStick` (equities). -/
structure QuoteCandleStick where
  Symbol : List Char
  TypeTag : List Char
  Open : ℚ
  High : ℚ
  Low : ℚ
  Close : ℚ
  Volume : Nat
  Timestamp : ℚ
  Interval : List Char
deriving DecidableEq

/-- `composite.Greek` (greek data file). -/
structure Greek where
  ImpliedVolatility : ℚ
  Delta : ℚ
  Gamma : ℚ
  Theta : ℚ
  Vega : ℚ
  IsValid : Bool
deriving DecidableEq

/-- `composite.NewGreek`. -/
def NewGreek (impliedVolatility delta gamma theta vega : ℚ) (isValid : Bool) : Greek :=
  ⟨impliedVolatility, delta, gamma, theta, vega, isValid⟩

/-- `composite.optionsContractData` (options contract data file): the
per-contract latest-event slots plus the supplementary map. -/
structure OptionsContractData where
  contract : List Char
  latestTrade : Option OptionTrade
  latestQuote : Option OptionQuote
  latestRefresh : Option OptionRefresh
  latestUnusualActivity : Option OptionsUnusualActivity
  latestTradeCandleStick : Option OptionsTradeCandleStick
  latestAskQuoteCandleStick : Option OptionsQuoteCandleStick
  latestBidQuoteCandleStick : Option OptionsQuoteCandleStick
  supplementaryData : List Char → Option FloatPtr

/-- `composite.NewOptionsContractData`. -/
def NewOptionsContractData (contract : List Char) : OptionsContractData :=
  ⟨contract, none, none, none, none, none, none, none, fun _ => none⟩

/-- `optionsContractData.SetTrade`:
`if o.latestTrade == nil || (trade != nil && trade.Timestamp > o.latestTrade.Timestamp)`. -/
def OptionsContractData.SetTrade (o : OptionsContractData) (trade : Option OptionTrade) :
    Bool × OptionsContractData :=
  let accept : Bool :=
    match o.latestTrade, trade with
    | none, _ => true
    | some old, some t => decide (old.Timestamp < t.Timestamp)
    | some _, none => false
  if accept then (true, { o with latestTrade := trade }) else (false, o)

/-- `optionsContractData.SetTradeWithCallback`: runs `SetTrade` and, when the
write is accepted and a callback is registered, spawns one goroutine invoking
it (counted in the third component). -/
def OptionsContractData.SetTradeWithCallback (o : OptionsContractData)
    (trade : Option OptionTrade) (hasCallback : Bool) :
    Bool × OptionsContractData × Nat :=
  let r := o.SetTrade trade
  (r.1, r.2, if r.1 && hasCallback then 1 else 0)

/-- `optionsContractData.SetQuote`. -/
def OptionsContractData.SetQuote (o : OptionsContractData) (quote : Option OptionQuote) :
    Bool × OptionsContractData :=
  let accept : Bool :=
    match o.latestQuote, quote with
    | none, _ => true
    | some old, some q => decide (old.Timestamp < q.Timestamp)
    | some _, none => false
  if accept then (true, { o with latestQuote := quote }) else (false, o)

/-- `optionsContractData.SetQuoteWithCallback`. -/
def OptionsContractData.SetQuoteWithCallback (o : OptionsContractData)
    (quote : Option OptionQuote) (hasCallback : Bool) :
    Bool × OptionsContractData × Nat :=
  let r := o.SetQuote quote
  (r.1, r.2, if r.1 && hasCallback then 1 else 0)

/-- `optionsContractData.SetRefresh`: unconditional overwrite, always `true`. -/
def OptionsContractData.SetRefresh (o : OptionsContractData) (refresh : Option OptionRefresh) :
    Bool × OptionsContractData :=
  (true, { o with latestRefresh := refresh })

/-- `optionsContractData.SetRefreshWithCallback`. -/
def OptionsContractData.SetRefreshWithCallback (o : OptionsContractData)
    (refresh : Option OptionRefresh) (hasCallback : Bool) :
    Bool × OptionsContractData × Nat :=
  let r := o.SetRefresh refresh
  (r.1, r.2, if r.1 && hasCallback then 1 else 0)

/-- `optionsContractData.SetUnusualActivity`. -/
def OptionsContractData.SetUnusualActivity (o : OptionsContractData)
    (unusualActivity : Option OptionsUnusualActivity) : Bool × OptionsContractData :=
  let accept : Bool :=
    match o.latestUnusualActivity, unusualActivity with
    | none, _ => true
    | some old, some u => decide (old.Timestamp < u.Timestamp)
    | some _, none => false
  if accept then (true, { o with latestUnusualActivity := unusualActivity }) else (false, o)

/-- `optionsContractData.SetUnusualActivityWithCallback`. -/
def OptionsContractData.SetUnusualActivityWithCallback (o : OptionsContractData)
    (unusualActivity : Option OptionsUnusualActivity) (hasCallback : Bool) :
    Bool × OptionsContractData × Nat :=
  let r := o.SetUnusualActivity unusualActivity
  (r.1, r.2, if r.1 && hasCallback then 1 else 0)

/-- `optionsContractData.SetTradeCandleStick`. -/
def OptionsContractData.SetTradeCandleStick (o : OptionsContractData)
    (tradeCandleStick : Option OptionsTradeCandleStick) : Bool × OptionsContractData :=
  let accept : Bool :=
    match o.latestTradeCandleStick, tradeCandleStick with
    | none, _ => true
    | some old, some c => decide (old.Timestamp < c.Timestamp)
    | some _, none => false
  if accept then (true, { o with latestTradeCandleStick := tradeCandleStick })
  else (false, o)

/-- `optionsContractData.SetTradeCandleStickWithCallback`. -/
def OptionsContractData.SetTradeCandleStickWithCallback (o : OptionsContractData)
    (tradeCandleStick : Option OptionsTradeCandleStick) (hasCallback : Bool) :
    Bool × OptionsContractData × Nat :=
  let r := o.SetTradeCandleStick tradeCandleStick
  (r.1, r.2, if r.1 && hasCallback then 1 else 0)

/-- `optionsContractData.SetQuoteCandleStick`: nil is rejected first, then the
ask/bid slot is selected by the candle's `Type`. -/
def OptionsContractData.SetQuoteCandleStick (o : OptionsContractData)
    (quoteCandleStick : Option OptionsQuoteCandleStick) : Bool × OptionsContractData :=
  match quoteCandleStick with
  | none => (false, o)
  | some c =>
    if c.TypeTag = QuoteTypeAsk then
      match o.latestAskQuoteCandleStick with
      | none => (true, { o with latestAskQuoteCandleStick := some c })
      | some old =>
        if old.Timestamp < c.Timestamp then
          (true, { o with latestAskQuoteCandleStick := some c })
        else (false, o)
    else if c.TypeTag = QuoteTypeBid then
      match o.latestBidQuoteCandleStick with
      | none => (true, { o with latestBidQuoteCandleStick := some c })
      | some old =>
        if old.Timestamp < c.Timestamp then
          (true, { o with latestBidQuoteCandleStick := some c })
        else (false, o)
    else (false, o)

/-- `optionsContractData.SetQuoteCandleStickWithCallback`. -/
def OptionsContractData.SetQuoteCandleStickWithCallback (o : OptionsContractData)
    (quoteCandleStick : Option OptionsQuoteCandleStick) (hasCallback : Bool) :
    Bool × OptionsContractData × Nat :=
  let r := o.SetQuoteCandleStick quoteCandleStick
  (r.1, r.2, if r.1 && hasCallback then 1 else 0)

/-- `optionsContractData.SetSupplementaryDatum`: the merged pointer is
compared with the committed pointer by Go pointer identity. -/
def OptionsContractData.SetSupplementaryDatum (o : OptionsContractData)
    (key : List Char) (datum : Option FloatPtr)
    (update : List Char → Option FloatPtr → Option FloatPtr → Option FloatPtr) :
    Bool × OptionsContractData :=
  let oldValue := o.supplementaryData key
  let newValue := update key oldValue datum
  if goPtrEq newValue oldValue then (false, o)
  else
    (true, { o with supplementaryData :=
      fun k => if k = key then newValue else o.supplementaryData k })

/-- Go map insertion `m[key] = v` for the string-keyed maps. -/
def mapInsert {α : Type} (m : List Char → Option α) (key : List Char) (v : α) :
    List Char → Option α :=
  fun k => if k = key then some v else m k

/-- `composite.securityData` (security data file). -/
structure SecurityData where
  tickerSymbol : List Char
  latestTrade : Option EquityTrade
  latestAskQuote : Option EquityQuote
  latestBidQuote : Option EquityQuote
  latestTradeCandleStick : Option TradeCandleStick
  latestAskQuoteCandleStick : Option QuoteCandleStick
  latestBidQuoteCandleStick : Option QuoteCandleStick
  contracts : List Char → Option OptionsContractData
  supplementaryData : List Char → Option FloatPtr

/-- `composite.NewSecurityData`. -/
def NewSecurityData (tickerSymbol : List Char) : SecurityData :=
  ⟨tickerSymbol, none, none, none, none, none, none, fun _ => none, fun _ => none⟩

/-- `securityData.SetSupplementaryDatum` (pointer-identity comparison). -/
def SecurityData.SetSupplementaryDatum (s : SecurityData) (key : List Char)
    (datum : Option FloatPtr)
    (update : List Char → Option FloatPtr → Option FloatPtr → Option FloatPtr) :
    Bool × SecurityData :=
  let oldValue := s.supplementaryData key
  let newValue := update key oldValue datum
  if goPtrEq newValue oldValue then (false, s)
  else
    (true, { s with supplementaryData :=
      fun k => if k = key then newValue else s.supplementaryData k })

/-- `securityData.SetSupplementaryDatumWithCallback`. -/
def SecurityData.SetSupplementaryDatumWithCallback (s : SecurityData) (key : List Char)
    (datum : Option FloatPtr) (hasCallback : Bool)
    (update : List Char → Option FloatPtr → Option FloatPtr → Option FloatPtr) :
    Bool × SecurityData × Nat :=
  let r := s.SetSupplementaryDatum key datum update
  (r.1, r.2, if r.1 && hasCallback then 1 else 0)

/-- `securityData.SetEquitiesTrade`. -/
def SecurityData.SetEquitiesTrade (s : SecurityData) (trade : Option EquityTrade) :
    Bool × SecurityData :=
  let accept : Bool :=
    match s.latestTrade, trade with
    | none, _ => true
    | some old, some t => decide (old.Timestamp < t.Timestamp)
    | some _, none => false
  if accept then (true, { s with latestTrade := trade }) else (false, s)

/-- `securityData.SetEquitiesTradeWithCallback`. -/
def SecurityData.SetEquitiesTradeWithCallback (s : SecurityData)
    (trade : Option EquityTrade) (hasCallback : Bool) : Bool × SecurityData × Nat :=
  let r := s.SetEquitiesTrade trade
  (r.1, r.2, if r.1 && hasCallback then 1 else 0)

/-- `securityData.SetEquitiesQuote`: ask/bid slot chosen by the quote type. -/
def SecurityData.SetEquitiesQuote (s : SecurityData) (quote : Option EquityQuote) :
    Bool × SecurityData :=
  match quote with
  | none => (false, s)
  | some q =>
    if q.TypeTag = ASK then
      match s.latestAskQuote with
      | none => (true, { s with latestAskQuote := some q })
      | some old =>
        if old.Timestamp < q.Timestamp then (true, { s with latestAskQuote := some q })
        else (false, s)
    else if q.TypeTag = BID then
      match s.latestBidQuote with
      | none => (true, { s with latestBidQuote := some q })
      | some old =>
        if old.Timestamp < q.Timestamp then (true, { s with latestBidQuote := some q })
        else (false, s)
    else (false, s)

/-- `securityData.SetEquitiesQuoteWithCallback`. -/
def SecurityData.SetEquitiesQuoteWithCallback (s : SecurityData)
    (quote : Option EquityQuote) (hasCallback : Bool) : Bool × SecurityData × Nat :=
  let r := s.SetEquitiesQuote quote
  (r.1, r.2, if r.1 && hasCallback then 1 else 0)

/-- `securityData.SetEquitiesTradeCandleStick`. -/
def SecurityData.SetEquitiesTradeCandleStick (s : SecurityData)
    (tradeCandleStick : Option TradeCandleStick) : Bool × SecurityData :=
  let accept : Bool :=
    match s.latestTradeCandleStick, tradeCandleStick with
    | none, _ => true
    | some old, some c => decide (old.Timestamp < c.Timestamp)
    | some _, none => false
  if accept then (true, { s with latestTradeCandleStick := tradeCandleStick })
  else (false, s)

/-- `securityData.SetEquitiesTradeCandleStickWithCallback`. -/
def SecurityData.SetEquitiesTradeCandleStickWithCallback (s : SecurityData)
    (tradeCandleStick : Option TradeCandleStick) (hasCallback : Bool) :
    Bool × SecurityData × Nat :=
  let r := s.SetEquitiesTradeCandleStick tradeCandleStick
  (r.1, r.2, if r.1 && hasCallback then 1 else 0)

/-- `securityData.SetEquitiesQuoteCandleStick`. -/
def SecurityData.SetEquitiesQuoteCandleStick (s : SecurityData)
    (quoteCandleStick : Option QuoteCandleStick) : Bool × SecurityData :=
  match quoteCandleStick with
  | none => (false, s)
  | some c =>
    if c.TypeTag = QuoteTypeAsk then
      match s.latestAskQuoteCandleStick with
      | none => (true, { s with latestAskQuoteCandleStick := some c })
      | some old =>
        if old.Timestamp < c.Timestamp then
          (true, { s with latestAskQuoteCandleStick := some c })
        else (false, s)
    else if c.TypeTag = QuoteTypeBid then
      match s.latestBidQuoteCandleStick with
      | none => (true, { s with latestBidQuoteCandleStick := some c })
      | some old =>
        if old.Timestamp < c.Timestamp then
          (true, { s with latestBidQuoteCandleStick := some c })
        else (false, s)
    else (false, s)

/-- `securityData.SetEquitiesQuoteCandleStickWithCallback`. -/
def SecurityData.SetEquitiesQuoteCandleStickWithCallback (s : SecurityData)
    (quoteCandleStick : Option QuoteCandleStick) (hasCallback : Bool) :
    Bool × SecurityData × Nat :=
  let r := s.SetEquitiesQuoteCandleStick quoteCandleStick
  (r.1, r.2, if r.1 && hasCallback then 1 else 0)

/-- `securityData.GetOptionsContractData`. -/
def SecurityData.GetOptionsContractData (s : SecurityData) (contract : List Char) :
    Option OptionsContractData :=
  s.contracts contract

/-- Lazy creation step shared by the `securityData.SetOptionsContract*`
methods: fetch the contract entry, creating and inserting it when absent. -/
def SecurityData.getOrCreateContract (s : SecurityData) (contract : List Char) :
    OptionsContractData × SecurityData :=
  match s.contracts contract with
  | some cd => (cd, s)
  | none =>
    let cd := NewOptionsContractData contract
    (cd, { s with contracts := mapInsert s.contracts contract cd })

/-- `securityData.SetOptionsContractTradeWithCallback`: delegates to the
contract-level `SetTradeWithCallback` (which already schedules the callback
on success) and then, on success, schedules the same callback once more. -/
def SecurityData.SetOptionsContractTradeWithCallback (s : SecurityData)
    (trade : Option OptionTrade) (hasCallback : Bool) : Bool × SecurityData × Nat :=
  match trade with
  | none => (false, s, 0)
  | some t =>
    let p := s.getOrCreateContract t.ContractId
    let r := p.1.SetTradeWithCallback (some t) hasCallback
    let s2 := { p.2 with contracts := mapInsert p.2.contracts t.ContractId r.2.1 }
    (r.1, s2, r.2.2 + if r.1 && hasCallback then 1 else 0)

/-- `securityData.SetOptionsContractQuoteWithCallback` (same double dispatch
as the trade variant). -/
def SecurityData.SetOptionsContractQuoteWithCallback (s : SecurityData)
    (quote : Option OptionQuote) (hasCallback : Bool) : Bool × SecurityData × Nat :=
  match quote with
  | none => (false, s, 0)
  | some q =>
    let p := s.getOrCreateContract q.ContractId
    let r := p.1.SetQuoteWithCallback (some q) hasCallback
    let s2 := { p.2 with contracts := mapInsert p.2.contracts q.ContractId r.2.1 }
    (r.1, s2, r.2.2 + if r.1 && hasCallback then 1 else 0)

/-- `securityData.SetOptionsContractRefreshWithCallback`. -/
def SecurityData.SetOptionsContractRefreshWithCallback (s : SecurityData)
    (refresh : Option OptionRefresh) (hasCallback : Bool) : Bool × SecurityData × Nat :=
  match refresh with
  | none => (false, s, 0)
  | some rf =>
    let p := s.getOrCreateContract rf.ContractId
    let r := p.1.SetRefreshWithCallback (some rf) hasCallback
    let s2 := { p.2 with contracts := mapInsert p.2.contracts rf.ContractId r.2.1 }
    (r.1, s2, r.2.2 + if r.1 && hasCallback then 1 else 0)

/-- `securityData.SetOptionsContractUnusualActivityWithCallback`. -/
def SecurityData.SetOptionsContractUnusualActivityWithCallback (s : SecurityData)
    (unusualActivity : Option OptionsUnusualActivity) (hasCallback : Bool) :
    Bool × SecurityData × Nat :=
  match unusualActivity with
  | none => (false, s, 0)
  | some u =>
    let p := s.getOrCreateContract u.Contract
    let r := p.1.SetUnusualActivityWithCallback (some u) hasCallback
    let s2 := { p.2 with contracts := mapInsert p.2.contracts u.Contract r.2.1 }
    (r.1, s2, r.2.2 + if r.1 && hasCallback then 1 else 0)

/-- `securityData.SetOptionsContractTradeCandleStickWithCallback`. -/
def SecurityData.SetOptionsContractTradeCandleStickWithCallback (s : SecurityData)
    (tradeCandleStick : Option OptionsTradeCandleStick) (hasCallback : Bool) :
    Bool × SecurityData × Nat :=
  match tradeCandleStick with
  | none => (false, s, 0)
  | some c =>
    let p := s.getOrCreateContract c.Contract
    let r := p.1.SetTradeCandleStickWithCallback (some c) hasCallback
    let s2 := { p.2 with contracts := mapInsert p.2.contracts c.Contract r.2.1 }
    (r.1, s2, r.2.2 + if r.1 && hasCallback then 1 else 0)

/-- `securityData.SetOptionsContractQuoteCandleStickWithCallback`. -/
def SecurityData.SetOptionsContractQuoteCandleStickWithCallback (s : SecurityData)
    (quoteCandleStick : Option OptionsQuoteCandleStick) (hasCallback : Bool) :
    Bool × SecurityData × Nat :=
  match quoteCandleStick with
  | none => (false, s, 0)
  | some c =>
    let p := s.getOrCreateContract c.Contract
    let r := p.1.SetQuoteCandleStickWithCallback (some c) hasCallback
    let s2 := { p.2 with contracts := mapInsert p.2.contracts c.Contract r.2.1 }
    (r.1, s2, r.2.2 + if r.1 && hasCallback then 1 else 0)

/-- Scan of `extractTickerFromContract`: the index of the first position where
two consecutive underscores start (`contract[i] == '_' && contract[i+1] == '_'`,
`i < len-1`). -/
def findDoubleUnderscore : List Char → Nat → Option Nat
  | c1 :: c2 :: rest, i =>
    if c1 = '_' ∧ c2 = '_' then some i else findDoubleUnderscore (c2 :: rest) (i + 1)
  | _, _ => none

/-- `extractTickerFromContract` (data cache file): empty result for contracts
shorter than 6 bytes; otherwise the prefix before the first `__`, falling back
to the first 6 bytes. -/
def extractTickerFromContract (contract : List Char) : List Char :=
  if contract.length < 6 then []
  else
    match findDoubleUnderscore contract 0 with
    | some i => contract.take i
    | none => if 6 ≤ contract.length then contract.take 6 else []

/-- `composite.dataCache` (data cache file): securities and global
supplementary maps plus the registered-callback slots (a flag models a
non-nil callback). -/
structure DataCache where
  securities : List Char → Option SecurityData
  supplementaryData : List Char → Option FloatPtr
  supplementalDatumUpdatedCallback : Bool
  securitySupplementalDatumUpdatedCallback : Bool
  equitiesTradeUpdatedCallback : Bool
  equitiesQuoteUpdatedCallback : Bool
  equitiesTradeCandleStickUpdatedCallback : Bool
  equitiesQuoteCandleStickUpdatedCallback : Bool
  optionsTradeUpdatedCallback : Bool
  optionsQuoteUpdatedCallback : Bool
  optionsRefreshUpdatedCallback : Bool
  optionsUnusualActivityUpdatedCallback : Bool
  optionsTradeCandleStickUpdatedCallback : Bool
  optionsQuoteCandleStickUpdatedCallback : Bool

/-- `composite.NewDataCache` with a given set of registered callbacks
(registration happens by the `Set*Callback` assignments after creation). -/
def NewDataCache (supplCb secSupplCb eqTradeCb eqQuoteCb eqTradeCandleCb
    eqQuoteCandleCb optTradeCb optQuoteCb optRefreshCb optUACb optTradeCandleCb
    optQuoteCandleCb : Bool) : DataCache :=
  ⟨fun _ => none, fun _ => none, supplCb, secSupplCb, eqTradeCb, eqQuoteCb,
    eqTradeCandleCb, eqQuoteCandleCb, optTradeCb, optQuoteCb, optRefreshCb,
    optUACb, optTradeCandleCb, optQuoteCandleCb⟩

/-- `dataCache.SetSupplementaryDatum`: merge, compare the merged pointer to
the committed pointer by identity, commit and schedule the observer only on
change. -/
def DataCache.SetSupplementaryDatum (d : DataCache) (key : List Char)
    (datum : Option FloatPtr)
    (update : List Char → Option FloatPtr → Option FloatPtr → Option FloatPtr) :
    Bool × DataCache × Nat :=
  let oldValue := d.supplementaryData key
  let newValue := update key oldValue datum
  if goPtrEq newValue oldValue then (false, d, 0)
  else
    (true,
     { d with supplementaryData := fun k => if k = key then newValue else d.supplementaryData k },
     if d.supplementalDatumUpdatedCallback then 1 else 0)

/-- The default merge function used throughout the Greek client
(`func(key string, oldValue, newValue *float64) *float64 { return newValue }`). -/
def defaultSupplementalDatumUpdate :
    List Char → Option FloatPtr → Option FloatPtr → Option FloatPtr :=
  fun _ _ newValue => newValue

/-- Lazy security creation shared by the `dataCache.Set*` methods. -/
def DataCache.getOrCreateSecurity (d : DataCache) (tickerSymbol : List Char) :
    SecurityData × DataCache :=
  match d.securities tickerSymbol with
  | some sd => (sd, d)
  | none =>
    let sd := NewSecurityData tickerSymbol
    (sd, { d with securities := mapInsert d.securities tickerSymbol sd })

/-- Store an updated security entry back (the Go map holds a pointer that the
callee mutates in place; the functional model writes the new value back). -/
def DataCache.putSecurity (d : DataCache) (tickerSymbol : List Char) (sd : SecurityData) :
    DataCache :=
  { d with securities := mapInsert d.securities tickerSymbol sd }

/-- `dataCache.SetEquityTrade`. -/
def DataCache.SetEquityTrade (d : DataCache) (trade : Option EquityTrade) :
    Bool × DataCache × Nat :=
  match trade with
  | none => (false, d, 0)
  | some t =>
    let p := d.getOrCreateSecurity t.Symbol
    let r := p.1.SetEquitiesTradeWithCallback (some t) d.equitiesTradeUpdatedCallback
    (r.1, p.2.putSecurity t.Symbol r.2.1, r.2.2)

/-- `dataCache.SetEquityQuote`. -/
def DataCache.SetEquityQuote (d : DataCache) (quote : Option EquityQuote) :
    Bool × DataCache × Nat :=
  match quote with
  | none => (false, d, 0)
  | some q =>
    let p := d.getOrCreateSecurity q.Symbol
    let r := p.1.SetEquitiesQuoteWithCallback (some q) d.equitiesQuoteUpdatedCallback
    (r.1, p.2.putSecurity q.Symbol r.2.1, r.2.2)

/-- `dataCache.SetEquityTradeCandleStick`. -/
def DataCache.SetEquityTradeCandleStick (d : DataCache)
    (tradeCandleStick : Option TradeCandleStick) : Bool × DataCache × Nat :=
  match tradeCandleStick with
  | none => (false, d, 0)
  | some c =>
    let p := d.getOrCreateSecurity c.Symbol
    let r := p.1.SetEquitiesTradeCandleStickWithCallback (some c)
      d.equitiesTradeCandleStickUpdatedCallback
    (r.1, p.2.putSecurity c.Symbol r.2.1, r.2.2)

/-- `dataCache.SetEquityQuoteCandleStick`. -/
def DataCache.SetEquityQuoteCandleStick (d : DataCache)
    (quoteCandleStick : Option QuoteCandleStick) : Bool × DataCache × Nat :=
  match quoteCandleStick with
  | none => (false, d, 0)
  | some c =>
    let p := d.getOrCreateSecurity c.Symbol
    let r := p.1.SetEquitiesQuoteCandleStickWithCallback (some c)
      d.equitiesQuoteCandleStickUpdatedCallback
    (r.1, p.2.putSecurity c.Symbol r.2.1, r.2.2)

/-- `dataCache.SetOptionsTrade`: nil gate, ticker extraction gate, lazy
security creation, then delegation. -/
def DataCache.SetOptionsTrade (d : DataCache) (trade : Option OptionTrade) :
    Bool × DataCache × Nat :=
  match trade with
  | none => (false, d, 0)
  | some t =>
    let tickerSymbol := extractTickerFromContract t.ContractId
    if tickerSymbol = [] then (false, d, 0)
    else
      let p := d.getOrCreateSecurity tickerSymbol
      let r := p.1.SetOptionsContractTradeWithCallback (some t) d.optionsTradeUpdatedCallback
      (r.1, p.2.putSecurity tickerSymbol r.2.1, r.2.2)

/-- `dataCache.SetOptionsQuote`. -/
def DataCache.SetOptionsQuote (d : DataCache) (quote : Option OptionQuote) :
    Bool × DataCache × Nat :=
  match quote with
  | none => (false, d, 0)
  | some q =>
    let tickerSymbol := extractTickerFromContract q.ContractId
    if tickerSymbol = [] then (false, d, 0)
    else
      let p := d.getOrCreateSecurity tickerSymbol
      let r := p.1.SetOptionsContractQuoteWithCallback (some q) d.optionsQuoteUpdatedCallback
      (r.1, p.2.putSecurity tickerSymbol r.2.1, r.2.2)

/-- `dataCache.SetOptionsRefresh`. -/
def DataCache.SetOptionsRefresh (d : DataCache) (refresh : Option OptionRefresh) :
    Bool × DataCache × Nat :=
  match refresh with
  | none => (false, d, 0)
  | some rf =>
    let tickerSymbol := extractTickerFromContract rf.ContractId
    if tickerSymbol = [] then (false, d, 0)
    else
      let p := d.getOrCreateSecurity tickerSymbol
      let r := p.1.SetOptionsContractRefreshWithCallback (some rf) d.optionsRefreshUpdatedCallback
      (r.1, p.2.putSecurity tickerSymbol r.2.1, r.2.2)

/-- `dataCache.SetOptionsUnusualActivity`. -/
def DataCache.SetOptionsUnusualActivity (d : DataCache)
    (unusualActivity : Option OptionsUnusualActivity) : Bool × DataCache × Nat :=
  match unusualActivity with
  | none => (false, d, 0)
  | some u =>
    let tickerSymbol := extractTickerFromContract u.Contract
    if tickerSymbol = [] then (false, d, 0)
    else
      let p := d.getOrCreateSecurity tickerSymbol
      let r := p.1.SetOptionsContractUnusualActivityWithCallback (some u)
        d.optionsUnusualActivityUpdatedCallback
      (r.1, p.2.putSecurity tickerSymbol r.2.1, r.2.2)

/-- `dataCache.SetOptionsTradeCandleStick`. -/
def DataCache.SetOptionsTradeCandleStick (d : DataCache)
    (tradeCandleStick : Option OptionsTradeCandleStick) : Bool × DataCache × Nat :=
  match tradeCandleStick with
  | none => (false, d, 0)
  | some c =>
    let tickerSymbol := extractTickerFromContract c.Contract
    if tickerSymbol = [] then (false, d, 0)
    else
      let p := d.getOrCreateSecurity tickerSymbol
      let r := p.1.SetOptionsContractTradeCandleStickWithCallback (some c)
        d.optionsTradeCandleStickUpdatedCallback
      (r.1, p.2.putSecurity tickerSymbol r.2.1, r.2.2)

/-- `dataCache.SetOptionsQuoteCandleStick`. -/
def DataCache.SetOptionsQuoteCandleStick (d : DataCache)
    (quoteCandleStick : Option OptionsQuoteCandleStick) : Bool × DataCache × Nat :=
  match quoteCandleStick with
  | none => (false, d, 0)
  | some c =>
    let tickerSymbol := extractTickerFromContract c.Contract
    if tickerSymbol = [] then (false, d, 0)
    else
      let p := d.getOrCreateSecurity tickerSymbol
      let r := p.1.SetOptionsContractQuoteCandleStickWithCallback (some c)
        d.optionsQuoteCandleStickUpdatedCallback
      (r.1, p.2.putSecurity tickerSymbol r.2.1, r.2.2)

/-- `dataCache.GetSecurityData`. -/
def DataCache.GetSecurityData (d : DataCache) (tickerSymbol : List Char) :
    Option SecurityData :=
  d.securities tickerSymbol

/-- `dataCache.GetLatestOptionsTrade` via
`securityData.GetOptionsContractTrade`. -/
def DataCache.GetLatestOptionsTrade (d : DataCache) (tickerSymbol contract : List Char) :
    Option OptionTrade :=
  match d.securities tickerSymbol with
  | none => none
  | some sd =>
    match sd.contracts contract with
    | none => none
    | some cd => cd.latestTrade

/-- `strings.TrimRight(s, "_")`: drop every trailing underscore. -/
def goTrimRightUnderscore (s : List Char) : List Char :=
  (s.reverse.dropWhile (fun c => c = '_')).reverse

/-- `strings.TrimLeft(s, "0")`: drop every leading zero digit. -/
def goTrimLeftZero (s : List Char) : List Char :=
  s.dropWhile (fun c => c = '0')

/-- `strings.IndexByte(s, c)`: index of the first occurrence, `-1` if none. -/
def goIndexByte (s : List Char) (c : Char) : Int :=
  match s.findIdx? (fun x => x = c) with
  | some i => (i : Int)
  | none => -1

/-- `convertOldContractIdToNew` (options.go): from the 21-byte
`SSSSSSYYMMDDTNNNNNFFF` form to the compact textual form
`sym_YYMMDDTwhole.part`.  The strike's integer part loses leading zeros and
the fraction loses its third digit when that digit is `'0'`. -/
def convertOldContractIdToNew (oldContractId : List Char) : List Char :=
  if oldContractId.length < 13 ∨ goIndexByte oldContractId '.' > 9 then oldContractId
  else
    let symbol := goTrimRightUnderscore (oldContractId.take 6)
    let exp := (oldContractId.drop 6).take 6
    let pc := (oldContractId.drop 12).headD '?'
    let whole0 := goTrimLeftZero ((oldContractId.drop 13).take 5)
    let whole := if whole0 = [] then ['0'] else whole0
    let part0 := oldContractId.drop 18
    let part := if part0.getD 2 '?' = '0' then part0.take 2 else part0
    symbol ++ '_' :: (exp ++ pc :: (whole ++ '.' :: part))

/-- One Go copy loop: overwrite `dst[start .. start+len(src)-1]` with `src`
(both `extractOldContractId` loops write a contiguous segment; the
whole-strike loop walks it right to left, with the same net effect). -/
def writeSeg (dst : List Char) (start : Nat) (src : List Char) : List Char :=
  match src with
  | [] => dst
  | c :: rest => writeSeg (dst.set start c) (start + 1) rest

/-- The backwards scan `for i = len(new)-2; new[i] != '.'; i--` of
`extractOldContractId`, started at the given index. -/
def findDotDown (s : List Char) : Nat → Nat
  | 0 => 0
  | i + 1 => if s.getD (i + 1) '?' = '.' then i + 1 else findDotDown s i

/-- `extractOldContractId` (options.go): rebuild the 21-byte id from the
textual form, over the template `______000000X00000000`.  Faithfully to the
source, the final byte of the input is never copied: the fraction loop stops
at `len(new)-1`. -/
def extractOldContractId (newContractBytes : List Char) : List Char :=
  let template : List Char :=
    ['_', '_', '_', '_', '_', '_', '0', '0', '0', '0', '0', '0', 'X',
     '0', '0', '0', '0', '0', '0', '0', '0']
  let j := (newContractBytes.takeWhile (fun c => c ≠ '_')).length
  let o1 := writeSeg template 0 (newContractBytes.take j)
  let o2 := writeSeg o1 6 ((newContractBytes.drop (j + 1)).take 7)
  let indexOfPC := j + 7
  let indexOfDecimal := findDotDown newContractBytes (newContractBytes.length - 2)
  let wholeLen := indexOfDecimal - 1 - indexOfPC
  let o3 := writeSeg o2 (18 - wholeLen) ((newContractBytes.drop (indexOfPC + 1)).take wholeLen)
  let fracLen := newContractBytes.length - 1 - (indexOfDecimal + 1)
  writeSeg o3 18 ((newContractBytes.drop (indexOfDecimal + 1)).take fracLen)

/-- A checked Go byte read `data[i]`: `none` models the index-out-of-range
panic. -/
def byteAt (data : List Nat) (i : Nat) : Option Nat :=
  data.get? i

/-- A checked Go slice `data[a:b]`: `none` models the slice-bounds panic. -/
def goSlice (data : List Nat) (a b : Nat) : Option (List Nat) :=
  if a ≤ b ∧ b ≤ data.length then some ((data.drop a).take (b - a)) else none

/-- `binary.LittleEndian.Uint32` / `Uint64` over an extracted byte segment. -/
def leUint (bytes : List Nat) : Nat :=
  bytes.foldr (fun b acc => b + 256 * acc) 0

/-- `scaleTimestamp`: nanoseconds to seconds. -/
def scaleTimestamp (timestamp : Nat) : ℚ :=
  (timestamp : ℚ) / 1000000000

/-- `MAX_OPTION_SYMBOL_SIZE`. -/
def MAX_OPTION_SYMBOL_SIZE : Nat := 21

/-- `OPTION_TRADE_MSG_SIZE`. -/
def OPTION_TRADE_MSG_SIZE : Nat := 72

/-- `OPTION_QUOTE_MSG_SIZE`. -/
def OPTION_QUOTE_MSG_SIZE : Nat := 52

/-- `OPTION_REFRESH_MSG_SIZE`. -/
def OPTION_REFRESH_MSG_SIZE : Nat := 52

/-- `OPTION_UA_MSG_SIZE`. -/
def OPTION_UA_MSG_SIZE : Nat := 74

/-- Wire-level `OptionTrade` as `parseOptionTrade` builds it.  Prices keep
the raw little-endian integer together with the 1-byte price type (the Go
float decode `raw / divisorTable[priceType]` divides by a table that contains
zeros and NaN, which has no rational counterpart; no claim depends on the
decoded value). -/
structure WireOptionTrade where
  ContractId : List Char
  PriceRaw : Nat
  PriceType : Nat
  Size : Nat
  Timestamp : ℚ
  TotalVolume : Nat
  AskPriceRaw : Nat
  BidPriceRaw : Nat
  UnderlyingPriceRaw : Nat
  UnderlyingPriceType : Nat
  Qualifiers : List Nat
  Exchange : Nat
deriving DecidableEq

/-- `parseOptionTrade` (options.go), with every Go index/slice modelled as a
checked read. -/
def parseOptionTrade (bytes : List Nat) : Option WireOptionTrade := do
  let symLen ← byteAt bytes 0
  let symBytes ← goSlice bytes 1 (1 + symLen)
  let priceType ← byteAt bytes 23
  let uPriceType ← byteAt bytes 24
  let priceBytes ← goSlice bytes 25 29
  let sizeBytes ← goSlice bytes 29 33
  let tsBytes ← goSlice bytes 33 41
  let volBytes ← goSlice bytes 41 49
  let askBytes ← goSlice bytes 49 53
  let bidBytes ← goSlice bytes 53 57
  let undBytes ← goSlice bytes 57 61
  let qualBytes ← goSlice bytes 61 65
  let exch ← byteAt bytes 65
  some
    { ContractId := extractOldContractId (symBytes.map Char.ofNat)
      PriceRaw := leUint priceBytes
      PriceType := priceType
      Size := leUint sizeBytes
      Timestamp := scaleTimestamp (leUint tsBytes)
      TotalVolume := leUint volBytes
      AskPriceRaw := leUint askBytes
      BidPriceRaw := leUint bidBytes
      UnderlyingPriceRaw := leUint undBytes
      UnderlyingPriceType := uPriceType
      Qualifiers := qualBytes
      Exchange := exch }

/-- Wire-level `OptionQuote` as `parseOptionQuote` builds it. -/
structure WireOptionQuote where
  ContractId : List Char
  AskPriceRaw : Nat
  AskSize : Nat
  BidPriceRaw : Nat
  BidSize : Nat
  PriceType : Nat
  Timestamp : ℚ
deriving DecidableEq

/-- `parseOptionQuote` (options.go). -/
def parseOptionQuote (bytes : List Nat) : Option WireOptionQuote := do
  let symLen ← byteAt bytes 0
  let symBytes ← goSlice bytes 1 (1 + symLen)
  let priceType ← byteAt bytes 23
  let askBytes ← goSlice bytes 24 28
  let askSizeBytes ← goSlice bytes 28 32
  let bidBytes ← goSlice bytes 32 36
  let bidSizeBytes ← goSlice bytes 36 40
  let tsBytes ← goSlice bytes 40 48
  some
    { ContractId := extractOldContractId (symBytes.map Char.ofNat)
      AskPriceRaw := leUint askBytes
      AskSize := leUint askSizeBytes
      BidPriceRaw := leUint bidBytes
      BidSize := leUint bidSizeBytes
      PriceType := priceType
      Timestamp := scaleTimestamp (leUint tsBytes) }

/-- Wire-level `OptionRefresh` as `parseOptionRefresh` builds it. -/
structure WireOptionRefresh where
  ContractId : List Char
  OpenInterest : Nat
  OpenPriceRaw : Nat
  ClosePriceRaw : Nat
  HighPriceRaw : Nat
  LowPriceRaw : Nat
  PriceType : Nat
deriving DecidableEq

/-- `parseOptionRefresh` (options.go). -/
def parseOptionRefresh (bytes : List Nat) : Option WireOptionRefresh := do
  let symLen ← byteAt bytes 0
  let symBytes ← goSlice bytes 1 (1 + symLen)
  let priceType ← byteAt bytes 23
  let oiBytes ← goSlice bytes 24 28
  let openBytes ← goSlice bytes 28 32
  let closeBytes ← goSlice bytes 32 36
  let highBytes ← goSlice bytes 36 40
  let lowBytes ← goSlice bytes 40 44
  some
    { ContractId := extractOldContractId (symBytes.map Char.ofNat)
      OpenInterest := leUint oiBytes
      OpenPriceRaw := leUint openBytes
      ClosePriceRaw := leUint closeBytes
      HighPriceRaw := leUint highBytes
      LowPriceRaw := leUint lowBytes
      PriceType := priceType }

/-- Wire-level `OptionUnusualActivity` as `parseOptionUA` builds it. -/
structure WireOptionUA where
  ContractId : List Char
  UAKind : Nat
  Sentiment : Nat
  PriceTypeA : Nat
  PriceTypeB : Nat
  TotalValueRaw : Nat
  TotalSize : Nat
  AveragePriceRaw : Nat
  AskPriceRaw : Nat
  BidPriceRaw : Nat
  UnderlyingPriceRaw : Nat
  Timestamp : ℚ
deriving DecidableEq

/-- `parseOptionUA` (options.go). -/
def parseOptionUA (bytes : List Nat) : Option WireOptionUA := do
  let symLen ← byteAt bytes 0
  let symBytes ← goSlice bytes 1 (1 + symLen)
  let uaKind ← byteAt bytes 22
  let sentiment ← byteAt bytes 23
  let priceTypeA ← byteAt bytes 24
  let priceTypeB ← byteAt bytes 25
  let totalValueBytes ← goSlice bytes 26 34
  let totalSizeBytes ← goSlice bytes 34 38
  let avgPriceBytes ← goSlice bytes 38 42
  let askBytes ← goSlice bytes 42 46
  let bidBytes ← goSlice bytes 46 50
  let undBytes ← goSlice bytes 50 54
  let tsBytes ← goSlice bytes 54 62
  some
    { ContractId := extractOldContractId (symBytes.map Char.ofNat)
      UAKind := uaKind
      Sentiment := sentiment
      PriceTypeA := priceTypeA
      PriceTypeB := priceTypeB
      TotalValueRaw := leUint totalValueBytes
      TotalSize := leUint totalSizeBytes
      AveragePriceRaw := leUint avgPriceBytes
      AskPriceRaw := leUint askBytes
      BidPriceRaw := leUint bidBytes
      UnderlyingPriceRaw := leUint undBytes
      Timestamp := scaleTimestamp (leUint tsBytes) }

/-- One decoded options record, tagged by kind. -/
inductive OptionsMsg where
  | trade (t : WireOptionTrade)
  | quote (q : WireOptionQuote)
  | refresh (r : WireOptionRefresh)
  | ua (u : WireOptionUA)
deriving DecidableEq

/-- The record loop of `workOnOptions`; `none` models a panic anywhere in the
batch.  The source chain tests `== 1`, `== 0`, `> 2`, `== 2` and has a
log-only fallback, which is unreachable for byte-valued types; the model
folds the `== 2` test into the final branch accordingly. -/
def workOnOptionsLoop (data : List Nat) : Nat → Nat → Option (List OptionsMsg)
  | 0, _ => some []
  | count + 1, startIndex => do
    let msgType ← byteAt data (startIndex + 1 + MAX_OPTION_SYMBOL_SIZE)
    if msgType = 1 then
      let slice ← goSlice data startIndex (startIndex + OPTION_QUOTE_MSG_SIZE)
      let q ← parseOptionQuote slice
      let rest ← workOnOptionsLoop data count (startIndex + OPTION_QUOTE_MSG_SIZE)
      some (.quote q :: rest)
    else if msgType = 0 then
      let slice ← goSlice data startIndex (startIndex + OPTION_TRADE_MSG_SIZE)
      let t ← parseOptionTrade slice
      let rest ← workOnOptionsLoop data count (startIndex + OPTION_TRADE_MSG_SIZE)
      some (.trade t :: rest)
    else if msgType > 2 then
      let slice ← goSlice data startIndex (startIndex + OPTION_UA_MSG_SIZE)
      let u ← parseOptionUA slice
      let rest ← workOnOptionsLoop data count (startIndex + OPTION_UA_MSG_SIZE)
      some (.ua u :: rest)
    else
      let slice ← goSlice data startIndex (startIndex + OPTION_REFRESH_MSG_SIZE)
      let r ← parseOptionRefresh slice
      let rest ← workOnOptionsLoop data count (startIndex + OPTION_REFRESH_MSG_SIZE)
      some (.refresh r :: rest)

/-- `workOnOptions` (options.go) applied to one inbound buffer pulled from the
read channel: `count := data[0]`, then the record loop from index 1.
`none` models a panic. -/
def workOnOptions (data : List Nat) : Option (List OptionsMsg) := do
  let count ← byteAt data 0
  workOnOptionsLoop data count 1

/-- Wire-level `EquityTrade` as `parseEquityTrade` builds it (`PriceBits`
keeps the raw IEEE-754 bits read from the wire). -/
structure WireEquityTrade where
  Symbol : List Char
  Source : Nat
  MarketCenter : Nat
  PriceBits : Nat
  Size : Nat
  Timestamp : ℚ
  TotalVolume : Nat
  Conditions : List Char
deriving DecidableEq

/-- `parseEquityTrade` (equities.go). -/
def parseEquityTrade (bytes : List Nat) : Option WireEquityTrade := do
  let symbolLen ← byteAt bytes 2
  let symBytes ← goSlice bytes 3 (3 + symbolLen)
  let source ← byteAt bytes (3 + symbolLen)
  let mcBytes ← goSlice bytes (4 + symbolLen) (6 + symbolLen)
  let priceBytes ← goSlice bytes (6 + symbolLen) (10 + symbolLen)
  let sizeBytes ← goSlice bytes (10 + symbolLen) (14 + symbolLen)
  let tsBytes ← goSlice bytes (14 + symbolLen) (22 + symbolLen)
  let volBytes ← goSlice bytes (22 + symbolLen) (26 + symbolLen)
  let conditionsLen ← byteAt bytes (26 + symbolLen)
  let conditions ←
    if conditionsLen > 0 then do
      let condBytes ← goSlice bytes (27 + symbolLen) (27 + symbolLen + conditionsLen)
      some (condBytes.map Char.ofNat)
    else some []
  some
    { Symbol := symBytes.map Char.ofNat
      Source := source
      MarketCenter := leUint mcBytes
      PriceBits := leUint priceBytes
      Size := leUint sizeBytes
      Timestamp := scaleTimestamp (leUint tsBytes)
      TotalVolume := leUint volBytes
      Conditions := conditions }

/-- Wire-level `EquityQuote` as `parseEquityQuote` builds it. -/
structure WireEquityQuote where
  TypeTag : Nat
  Symbol : List Char
  Source : Nat
  MarketCenter : Nat
  PriceBits : Nat
  Size : Nat
  Timestamp : ℚ
  Conditions : List Char
deriving DecidableEq

/-- `parseEquityQuote` (equities.go). -/
def parseEquityQuote (bytes : List Nat) : Option WireEquityQuote := do
  let typeTag ← byteAt bytes 0
  let symbolLen ← byteAt bytes 2
  let symBytes ← goSlice bytes 3 (3 + symbolLen)
  let source ← byteAt bytes (3 + symbolLen)
  let mcBytes ← goSlice bytes (4 + symbolLen) (6 + symbolLen)
  let priceBytes ← goSlice bytes (6 + symbolLen) (10 + symbolLen)
  let sizeBytes ← goSlice bytes (10 + symbolLen) (14 + symbolLen)
  let tsBytes ← goSlice bytes (14 + symbolLen) (22 + symbolLen)
  let conditionsLen ← byteAt bytes (22 + symbolLen)
  let conditions ←
    if conditionsLen > 0 then do
      let condBytes ← goSlice bytes (23 + symbolLen) (23 + symbolLen + conditionsLen)
      some (condBytes.map Char.ofNat)
    else some []
  some
    { TypeTag := typeTag
      Symbol := symBytes.map Char.ofNat
      Source := source
      MarketCenter := leUint mcBytes
      PriceBits := leUint priceBytes
      Size := leUint sizeBytes
      Timestamp := scaleTimestamp (leUint tsBytes)
      Conditions := conditions }

/-- One decoded equities record. -/
inductive EquitiesMsg where
  | trade (t : WireEquityTrade)
  | quote (q : WireEquityQuote)
deriving DecidableEq

/-- The record loop of `workOnEquities`; as in the source, the invalid-type
branch only logs and does not advance `startIndex`. -/
def workOnEquitiesLoop (data : List Nat) : Nat → Nat → Option (List EquitiesMsg)
  | 0, _ => some []
  | count + 1, startIndex => do
    let msgType ← byteAt data startIndex
    if msgType = 1 ∨ msgType = 2 then do
      let lenByte ← byteAt data (startIndex + 1)
      let endIndex := startIndex + lenByte
      let slice ← goSlice data startIndex endIndex
      let q ← parseEquityQuote slice
      let rest ← workOnEquitiesLoop data count endIndex
      some (.quote q :: rest)
    else if msgType = 0 then do
      let lenByte ← byteAt data (startIndex + 1)
      let endIndex := startIndex + lenByte
      let slice ← goSlice data startIndex endIndex
      let t ← parseEquityTrade slice
      let rest ← workOnEquitiesLoop data count endIndex
      some (.trade t :: rest)
    else
      workOnEquitiesLoop data count startIndex

/-- `workOnEquities` (equities.go) applied to one inbound buffer. -/
def workOnEquities (data : List Nat) : Option (List EquitiesMsg) := do
  let count ← byteAt data 0
  workOnEquitiesLoop data count 1

/-- `selfHealBackoffs` (client.go). -/
def selfHealBackoffs : List Nat := [10, 30, 60, 300, 600]

/-- The `min` helper of client.go. -/
def goMin (a b : Nat) : Nat :=
  if a < b then a else b

/-- The `for !success` loop of `doBackoff`, entered after a failed attempt
with the current schedule index `i` (the pending sleep is
`selfHealBackoffs[i]`); each list element is the result of the next `fn()`
call.  Produces the sleep durations in order.  `isStopped` stays false (no
`Stop()` in the scenarios considered); an exhausted stub list ends the run. -/
def doBackoffLoop : List Bool → Nat → List Nat
  | [], _ => []
  | r :: rest, i =>
    selfHealBackoffs.getD i 0 ::
      if r then []
      else doBackoffLoop rest (goMin (i + 1) (selfHealBackoffs.length - 1))

/-- `doBackoff` (client.go) driven by a stub whose successive `fn()` results
are the given list: the sleep durations performed, in order. -/
def doBackoffSleeps (results : List Bool) : List Nat :=
  match results with
  | [] => []
  | r :: rest => if r then [] else doBackoffLoop rest 0

/-- Number of `fn()` calls `doBackoff` makes before (and including) the first
success. -/
def doBackoffCallCount : List Bool → Nat
  | [] => 0
  | r :: rest => if r then 1 else 1 + doBackoffCallCount rest

/-- Unix seconds of Go's zero `time.Time` (0001-01-01T00:00:00 UTC): the
`eventTime` used by `GreekClient.getYearsToExpiration` when the latest
trade/quote timestamp is zero. -/
def goZeroTimeUnixSec : ℚ := -62135596800

/-- Upper bound of Go's `time.Duration` (`2^63 − 1` nanoseconds), in
seconds: ≈ 292.47 years. -/
def goMaxDurationSec : ℚ := 9223372036854775807 / 1000000000

/-- Lower bound of Go's `time.Duration` (`−2^63` nanoseconds), in seconds. -/
def goMinDurationSec : ℚ := -9223372036854775808 / 1000000000

/-- `t.Sub(u).Seconds()`: the difference of two instants, saturated to the
`time.Duration` range (Go's `time.Time.Sub` returns the maximum or minimum
`Duration` when the int64 nanosecond result would overflow). -/
def goTimeSubSec (t u : ℚ) : ℚ :=
  let d := t - u
  if d > goMaxDurationSec then goMaxDurationSec
  else if d < goMinDurationSec then goMinDurationSec
  else d

/-- `GreekClient.getYearsToExpiration` (greek_client.go).  The New York
calendar parse `latestOptionTrade.GetExpirationDate()` is abstracted as the
expiration instant's Unix seconds `expirationSec`; the non-nil trade is its
timestamp; the optional quote is its timestamp.
`expirationDate.Sub(eventTime).Seconds()` is the Duration-saturated
difference `goTimeSubSec` — the saturation is reached whenever the zero-time
fallback is taken. -/
def greekGetYearsToExpiration (expirationSec : ℚ) (tradeTimestamp : ℚ)
    (quoteTimestamp : Option ℚ) : ℚ :=
  let latestEventTime := tradeTimestamp
  let latestEventTime :=
    match quoteTimestamp with
    | some qts => if latestEventTime < qts then qts else latestEventTime
    | none => latestEventTime
  let eventTimeSec := if latestEventTime ≠ 0 then latestEventTime else goZeroTimeUnixSec
  let diff := goTimeSubSec expirationSec eventTimeSec
  if diff ≤ 0 then 0 else diff / 31557600

/-- The years-to-expiration computation as the specification words it:
"now" is the larger of the two timestamps, falling back to the current time
when both are zero; the result is `max 0 (expiration − now) / 31_557_600`. -/
def specYearsToExpiration (currentTimeSec expirationSec tradeTimestamp : ℚ)
    (quoteTimestamp : Option ℚ) : ℚ :=
  let latest :=
    match quoteTimestamp with
    | some qts => max tradeTimestamp qts
    | none => tradeTimestamp
  let now := if latest = 0 then currentTimeSec else latest
  max 0 (expirationSec - now) / 31557600

/-- The amended wording: identical to `specYearsToExpiration` except that the
fallback instant is Go's zero `time.Time`, not the current time, and the
`expiration − now` span is the `time.Duration`-saturated difference — so in
the fallback case the ≈2023-year span clamps to `2^63 − 1` ns and the result
is ≈ 292.27 years. -/
def specYearsToExpirationAmended (expirationSec tradeTimestamp : ℚ)
    (quoteTimestamp : Option ℚ) : ℚ :=
  let latest :=
    match quoteTimestamp with
    | some qts => max tradeTimestamp qts
    | none => tradeTimestamp
  let now := if latest = 0 then goZeroTimeUnixSec else latest
  max 0 (goTimeSubSec expirationSec now) / 31557600

/-- Byte subtraction `c - '0'` of the Go strike parsers (uint8 wraparound). -/
def charDigitByte (c : Char) : Nat :=
  (c.toNat + 256 - 48) % 256

/-- `BlackScholesGreekCalculator.getStrikePrice`: 5-digit integer part from
bytes 13..17 and one fractional digit from byte 18, scaled by 0.1. -/
def bsGetStrikePrice (contract : List Char) : ℚ :=
  if contract.length < 19 then 0
  else
    let strikeStr := (contract.drop 13).take 6
    let whole : Nat :=
      charDigitByte (strikeStr.getD 0 '?') * 10000 +
      charDigitByte (strikeStr.getD 1 '?') * 1000 +
      charDigitByte (strikeStr.getD 2 '?') * 100 +
      charDigitByte (strikeStr.getD 3 '?') * 10 +
      charDigitByte (strikeStr.getD 4 '?')
    let part : ℚ := (charDigitByte (strikeStr.getD 5 '?') : ℚ) * (1 / 10)
    (whole : ℚ) + part

/-- `BlackScholesGreekCalculator.isPut`. -/
def bsIsPut (contract : List Char) : Bool :=
  if contract.length < 13 then false
  else contract.getD 12 '?' = 'P'

/-- Outcome of the gating prefix of `BlackScholesGreekCalculator.Calculate`:
either the invalid short-circuit Greek, or entry into the non-short-circuit
branch with exactly the values that flow into the implied-volatility search
and the analytic formulas (transcendental float math, outside the rational
fragment). -/
inductive BSCalcResult where
  | shortCircuit (g : Greek)
  | proceed (isPut : Bool)
      (underlyingPrice strike yearsToExpiration riskFreeInterestRate
        dividendYield marketPrice : ℚ)
deriving DecidableEq

/-- The gating prefix of `BlackScholesGreekCalculator.Calculate`
(black_scholes_greek_calculator.go lines 22-51).  `yearsToExpiration` stands
for the value of `b.getYearsToExpiration(latestOptionTrade, latestOptionQuote)`
(that helper consults `time.Now()`, an ambient input). -/
def bsCalculate (riskFreeInterestRate dividendYield : ℚ)
    (underlyingTradePrice : ℚ) (quoteAskPrice quoteBidPrice : ℚ)
    (tradeContractId : List Char) (yearsToExpiration : ℚ) : BSCalcResult :=
  if quoteAskPrice ≤ 0 ∨ quoteBidPrice ≤ 0 ∨ riskFreeInterestRate ≤ 0 ∨
      underlyingTradePrice ≤ 0 then
    .shortCircuit (NewGreek 0 0 0 0 0 false)
  else
    let underlyingPrice := underlyingTradePrice
    let strike := bsGetStrikePrice tradeContractId
    let isPut := bsIsPut tradeContractId
    let marketPrice := (quoteAskPrice + quoteBidPrice) / 2
    if yearsToExpiration ≤ 0 ∨ strike ≤ 0 then
      .shortCircuit (NewGreek 0 0 0 0 0 false)
    else
      .proceed isPut underlyingPrice strike yearsToExpiration
        riskFreeInterestRate dividendYield marketPrice

/-- `lowVol`. -/
def lowVol : ℚ := 0

/-- `highVol`. -/
def highVol : ℚ := 5

/-- `volTolerance`. -/
def volTolerance : ℚ := 1 / 10000

/-- Ceiling-measure decrease justifying termination of the bisection loop. -/
theorem ceil_half_lt {w : ℚ} (htol : volTolerance < w) :
    ⌈w / 2 / volTolerance⌉₊ < ⌈w / volTolerance⌉₊ := by
  have htolpos : (0 : ℚ) < volTolerance := by norm_num [volTolerance]
  set x : ℚ := w / volTolerance with hx
  have hx1 : (1 : ℚ) < x := (one_lt_div htolpos).2 htol
  have hceil2 : 2 ≤ ⌈x⌉₊ := by
    have h := Nat.lt_ceil.2 (show ((1 : ℕ) : ℚ) < x by exact_mod_cast hx1)
    omega
  have hlex : x ≤ (⌈x⌉₊ : ℚ) := Nat.le_ceil x
  have hhalf : w / 2 / volTolerance = x / 2 := by rw [hx]; ring
  have hceil2q : ((2 : ℕ) : ℚ) ≤ (⌈x⌉₊ : ℚ) := by exact_mod_cast hceil2
  have hstep : x / 2 ≤ ((⌈x⌉₊ - 1 : ℕ) : ℚ) := by
    have hcast : ((⌈x⌉₊ - 1 : ℕ) : ℚ) = (⌈x⌉₊ : ℚ) - 1 := by
      have : 1 ≤ ⌈x⌉₊ := by omega
      push_cast [Nat.cast_sub this]
      ring
    rw [hcast]
    rcases le_or_lt x 2 with hle | hgt
    · have : ((2 : ℕ) : ℚ) = (2 : ℚ) := by norm_num
      linarith
    · linarith
  have hle : ⌈x / 2⌉₊ ≤ ⌈x⌉₊ - 1 := Nat.ceil_le.2 hstep
  rw [hhalf]
  omega

/-- The bisection loop shared by `calcImpliedVolatilityCall` and
`calcImpliedVolatilityPut`: while `high - low > volTolerance`, test the
predicate at the midpoint (`model price at mid > market price`) and keep the
half-bracket it selects.  Returns the final bracket together with the number
of loop iterations performed. -/
def bisectRun (p : ℚ → Bool) (low high : ℚ) : ℚ × ℚ × Nat :=
  if h : high - low ≤ volTolerance then (low, high, 0)
  else
    let mid := (high + low) / 2
    if p mid then
      let r := bisectRun p low mid
      (r.1, r.2.1, r.2.2 + 1)
    else
      let r := bisectRun p mid high
      (r.1, r.2.1, r.2.2 + 1)
termination_by ⌈(high - low) / volTolerance⌉₊
decreasing_by
  · have hw : volTolerance < high - low := by linarith [not_le.mp h]
    have : (high + low) / 2 - low = (high - low) / 2 := by ring
    rw [this]
    exact ceil_half_lt hw
  · have hw : volTolerance < high - low := by linarith [not_le.mp h]
    have : high - (high + low) / 2 = (high - low) / 2 := by ring
    rw [this]
    exact ceil_half_lt hw

/-- `BlackScholesGreekCalculator.calcImpliedVolatilityCall`: bisection on
`[lowVol, highVol]` with the predicate `calcPriceCall(S,K,T,r,mid,q) >
marketPrice` (the model-price evaluation, float transcendental math, enters
as the function `priceOf`), returning the final bracket's midpoint. -/
def calcImpliedVolatilityCall (priceOf : ℚ → ℚ) (marketPrice : ℚ) : ℚ :=
  let r := bisectRun (fun mid => decide (priceOf mid > marketPrice)) lowVol highVol
  (r.2.1 + r.1) / 2

/-- `BlackScholesGreekCalculator.calcImpliedVolatilityPut` (identical loop
with the put model price). -/
def calcImpliedVolatilityPut (priceOf : ℚ → ℚ) (marketPrice : ℚ) : ℚ :=
  let r := bisectRun (fun mid => decide (priceOf mid > marketPrice)) lowVol highVol
  (r.2.1 + r.1) / 2

/-- `takeWhile` passes over a prefix all of whose elements satisfy the
predicate. -/
theorem takeWhile_append_all {α : Type} (p : α → Bool) (a b : List α)
    (h : ∀ c ∈ a, p c = true) :
    List.takeWhile p (a ++ b) = a ++ List.takeWhile p b := by
  induction a with
  | nil => simp
  | cons x xs ih =>
    have hx : p x = true := h x (by simp)
    simp only [List.cons_append, List.takeWhile_cons, hx, if_true]
    rw [ih (fun c hc => h c (by simp [hc]))]

/-- `dropWhile` on a list headed by a failing element is the identity. -/
theorem dropWhile_head_false {α : Type} (p : α → Bool) (l : List α)
    (h : ∀ c, l.head? = some c → p c = false) :
    List.dropWhile p l = l := by
  cases l with
  | nil => simp
  | cons x xs => simp [List.dropWhile_cons, h x rfl]

/-- `goTrimRightUnderscore` removes exactly the underscore padding when the
ticker itself has no underscore. -/
theorem goTrimRightUnderscore_pad (sym : List Char) (k : Nat)
    (h : ∀ c ∈ sym, c ≠ '_') :
    goTrimRightUnderscore (sym ++ List.replicate k '_') = sym := by
  unfold goTrimRightUnderscore
  rw [List.reverse_append, List.reverse_replicate]
  have hrep : List.dropWhile (fun c => c = '_') (List.replicate k '_' ++ sym.reverse) =
      List.dropWhile (fun c => c = '_') sym.reverse := by
    induction k with
    | zero => simp
    | succ n ih => simp [List.replicate_succ, List.dropWhile_cons, ih]
  rw [hrep, dropWhile_head_false, List.reverse_reverse]
  intro c hc
  have hmem : c ∈ sym.reverse := List.mem_of_mem_head? hc
  simp only [List.mem_reverse] at hmem
  simpa using h c hmem

/-- Net effect of a Go copy loop: a splice. -/
theorem writeSeg_splice (src : List Char) :
    ∀ (dst : List Char) (start : Nat), start + src.length ≤ dst.length →
    writeSeg dst start src =
      dst.take start ++ src ++ dst.drop (start + src.length) := by
  induction src with
  | nil => intro dst start _; simp [writeSeg]
  | cons c rest ih =>
    intro dst start hlen
    have hstart : start < dst.length := by
      simp only [List.length_cons] at hlen; omega
    have hset := List.set_eq_take_cons_drop c hstart
    rw [writeSeg, ih (dst.set start c) (start + 1)
      (by simp only [List.length_set]; simp only [List.length_cons] at hlen; omega)]
    rw [hset]
    have htlen : (dst.take start).length = start := List.length_take_of_le (le_of_lt hstart)
    have htake : (dst.take start ++ c :: dst.drop (start + 1)).take (start + 1) =
        dst.take start ++ [c] := by
      have : start + 1 = (dst.take start).length + 1 := by rw [htlen]
      rw [this, List.take_append]
      simp
    have hdrop : (dst.take start ++ c :: dst.drop (start + 1)).drop (start + 1 + rest.length) =
        dst.drop (start + (rest.length + 1)) := by
      have h1 : start + 1 + rest.length = (dst.take start).length + (1 + rest.length) := by
        rw [htlen]; omega
      rw [h1, List.drop_append]
      have : List.drop (1 + rest.length) (c :: dst.drop (start + 1)) =
          List.drop rest.length (dst.drop (start + 1)) := by
        have : 1 + rest.length = rest.length + 1 := by omega
        rw [this]; simp
      rw [this, List.drop_drop]
      congr 1
      omega
    rw [htake, hdrop]
    simp only [List.length_cons, List.append_assoc, List.singleton_append,
      List.cons_append, List.nil_append]

/-- `writeSeg` preserves length on in-bounds writes. -/
theorem writeSeg_length (src dst : List Char) (start : Nat)
    (h : start + src.length ≤ dst.length) :
    (writeSeg dst start src).length = dst.length := by
  rw [writeSeg_splice src dst start h]
  simp only [List.length_append, List.length_take, List.length_drop]
  omega

/-- `findDotDown` finds the dot at `pos` when every scanned position above it
holds a non-dot character. -/
theorem findDotDown_spec (s : List Char) (pos : Nat)
    (hdot : s.getD pos '?' = '.') :
    ∀ i, pos ≤ i → (∀ k, pos < k → k ≤ i → s.getD k '?' ≠ '.') →
    findDotDown s i = pos := by
  intro i
  induction i with
  | zero =>
    intro hle _
    have : pos = 0 := by omega
    simp [findDotDown, this]
  | succ n ih =>
    intro hle habove
    by_cases hp : pos = n + 1
    · subst hp
      rw [show findDotDown s (n + 1) =
        (if s.getD (n + 1) '?' = '.' then n + 1 else findDotDown s n) from rfl]
      rw [if_pos hdot]
    · have hlt : pos ≤ n := by omega
      have hne : s.getD (n + 1) '?' ≠ '.' := habove (n + 1) (by omega) (by omega)
      rw [findDotDown, if_neg hne]
      exact ih hlt (fun k hk1 hk2 => habove k hk1 (by omega))

/-- A valid 21-byte OPRA id assembled from its components: ticker (at most 6
bytes, padded with underscores), 6 expiry digits, put/call byte, 5 strike
integer digits, and strike fraction digits `f0`,`f1`,`f2`. -/
def oldIdOf (sym : List Char) (e : List Char) (pc : Char) (w : List Char)
    (f0 f1 f2 : Char) : List Char :=
  sym ++ List.replicate (6 - sym.length) '_' ++ e ++ pc :: (w ++ [f0, f1, f2])

/-- The compressed strike integer part produced by
`convertOldContractIdToNew`. -/
def wholeOf (w : List Char) : List Char :=
  if goTrimLeftZero w = [] then ['0'] else goTrimLeftZero w

theorem oldIdOf_length (sym e : List Char) (pc : Char) (w : List Char)
    (f0 f1 f2 : Char) (hL : sym.length ≤ 6) (he : e.length = 6)
    (hw : w.length = 5) :
    (oldIdOf sym e pc w f0 f1 f2).length = 21 := by
  simp [oldIdOf, he, hw]
  omega

/-- `convertOldContractIdToNew` on a valid dot-free id whose third fraction
digit is `'0'`: the textual form keeps only the first two fraction digits. -/
theorem convert_on_valid (sym e w : List Char) (pc f0 f1 : Char)
    (hL : sym.length ≤ 6) (hU : ∀ c ∈ sym, c ≠ '_')
    (hsymD : ∀ c ∈ sym, c ≠ '.') (heLen : e.length = 6)
    (heD : ∀ c ∈ e, c ≠ '.') (hwLen : w.length = 5) (hwD : ∀ c ∈ w, c ≠ '.')
    (hpc : pc ≠ '.') (hf0 : f0 ≠ '.') (hf1 : f1 ≠ '.') :
    convertOldContractIdToNew (oldIdOf sym e pc w f0 f1 '0') =
      sym ++ '_' :: (e ++ pc :: (wholeOf w ++ '.' :: [f0, f1])) := by
  have hlen : (oldIdOf sym e pc w f0 f1 '0').length = 21 :=
    oldIdOf_length sym e pc w f0 f1 '0' hL heLen hwLen
  have hnodot : goIndexByte (oldIdOf sym e pc w f0 f1 '0') '.' = -1 := by
    unfold goIndexByte
    rw [List.findIdx?_eq_none_iff.2]
    intro x hx
    simp only [oldIdOf, List.mem_append, List.mem_cons, List.mem_replicate,
      List.mem_singleton, List.not_mem_nil, or_false] at hx
    simp only [decide_eq_false_iff_not]
    rcases hx with ((h | ⟨-, rfl⟩) | h) | rfl | h | rfl | rfl | rfl
    · exact hsymD x h
    · decide
    · exact heD x h
    · exact hpc
    · exact hwD x h
    · exact hf0
    · exact hf1
    · decide
  have hguard : ¬((oldIdOf sym e pc w f0 f1 '0').length < 13 ∨
      goIndexByte (oldIdOf sym e pc w f0 f1 '0') '.' > 9) := by
    rw [hlen, hnodot]
    push_neg
    refine ⟨by omega, by norm_num⟩
  have hpadlen : (sym ++ List.replicate (6 - sym.length) '_').length = 6 := by
    simp; omega
  have hsplit : oldIdOf sym e pc w f0 f1 '0' =
      (sym ++ List.replicate (6 - sym.length) '_') ++
        (e ++ pc :: (w ++ [f0, f1, '0'])) := by
    simp [oldIdOf]
  have htake6 : (oldIdOf sym e pc w f0 f1 '0').take 6 =
      sym ++ List.replicate (6 - sym.length) '_' := by
    rw [hsplit]; exact List.take_left' hpadlen
  have hdrop6 : (oldIdOf sym e pc w f0 f1 '0').drop 6 =
      e ++ pc :: (w ++ [f0, f1, '0']) := by
    rw [hsplit]; exact List.drop_left' hpadlen
  have hdrop12 : (oldIdOf sym e pc w f0 f1 '0').drop 12 =
      pc :: (w ++ [f0, f1, '0']) := by
    have h12 : (12 : Nat) = 6 + 6 := by norm_num
    rw [h12, ← List.drop_drop, hdrop6]
    exact List.drop_left' heLen
  have hdrop13 : (oldIdOf sym e pc w f0 f1 '0').drop 13 = w ++ [f0, f1, '0'] := by
    have h13 : (13 : Nat) = 12 + 1 := by norm_num
    rw [h13, ← List.drop_drop, hdrop12]
    simp
  have hdrop18 : (oldIdOf sym e pc w f0 f1 '0').drop 18 = [f0, f1, '0'] := by
    have h18 : (18 : Nat) = 13 + 5 := by norm_num
    rw [h18, ← List.drop_drop, hdrop13]
    exact List.drop_left' hwLen
  simp only [convertOldContractIdToNew]
  rw [if_neg hguard, htake6, goTrimRightUnderscore_pad sym (6 - sym.length) hU,
    hdrop6, List.take_left' heLen, hdrop12, hdrop13, List.take_left' hwLen, hdrop18]
  simp [wholeOf, List.headD, List.getD]

/-- `extractOldContractId` on a textual id with a two-digit fraction: every
byte is restored from the template or the input except the final fraction
digit, which the source's copy loop stops short of (positions 19 and 20 stay
`'0'`). -/
theorem extract_on_new (sym e whole : List Char) (pc f0 f1 : Char)
    (hL : sym.length ≤ 6) (hU : ∀ c ∈ sym, c ≠ '_')
    (heLen : e.length = 6) (hW1 : 1 ≤ whole.length) (hW5 : whole.length ≤ 5)
    (hf0 : f0 ≠ '.') :
    extractOldContractId (sym ++ '_' :: (e ++ pc :: (whole ++ '.' :: [f0, f1]))) =
      sym ++ List.replicate (6 - sym.length) '_' ++ e ++ pc ::
        ((List.replicate (5 - whole.length) '0' ++ whole) ++ [f0, '0', '0']) := by
  have h_tw : (sym ++ '_' :: (e ++ pc :: (whole ++ '.' :: [f0, f1]))).takeWhile
      (fun c => decide (c ≠ '_')) = sym := by
    rw [takeWhile_append_all _ sym _ (fun c hc => by simp [hU c hc])]
    simp [List.takeWhile_cons]
  have h_take_j : (sym ++ '_' :: (e ++ pc :: (whole ++ '.' :: [f0, f1]))).take
      sym.length = sym := List.take_left' rfl
  have htemplate :
      (['_', '_', '_', '_', '_', '_', '0', '0', '0', '0', '0', '0', 'X',
        '0', '0', '0', '0', '0', '0', '0', '0'] : List Char) =
      List.replicate 6 '_' ++ (['0', '0', '0', '0', '0', '0', 'X'] ++
        List.replicate 8 '0') := rfl
  have hO1 : writeSeg
      ['_', '_', '_', '_', '_', '_', '0', '0', '0', '0', '0', '0', 'X',
        '0', '0', '0', '0', '0', '0', '0', '0'] 0 sym =
      sym ++ (List.replicate (6 - sym.length) '_' ++
        (['0', '0', '0', '0', '0', '0', 'X'] ++ List.replicate 8 '0')) := by
    rw [writeSeg_splice sym _ 0 (by simp; omega)]
    rw [htemplate]
    simp only [List.take_zero, List.nil_append, Nat.zero_add]
    rw [List.drop_append_eq_append_drop, List.drop_replicate]
    have h0 : sym.length - 6 = 0 := by omega
    rw [List.length_replicate, h0, List.drop_zero]
  have hseg2 : ((sym ++ '_' :: (e ++ pc :: (whole ++ '.' :: [f0, f1]))).drop
      (sym.length + 1)).take 7 = e ++ [pc] := by
    have hsplit1 : sym ++ '_' :: (e ++ pc :: (whole ++ '.' :: [f0, f1])) =
        (sym ++ ['_']) ++ ((e ++ [pc]) ++ (whole ++ '.' :: [f0, f1])) := by
      simp
    rw [hsplit1, List.drop_left' (by simp), List.take_left' (by simp [heLen])]
  have hpadlen : (sym ++ List.replicate (6 - sym.length) '_').length = 6 := by
    simp; omega
  have hO2 : writeSeg
      (sym ++ (List.replicate (6 - sym.length) '_' ++
        (['0', '0', '0', '0', '0', '0', 'X'] ++ List.replicate 8 '0'))) 6 (e ++ [pc]) =
      ((sym ++ List.replicate (6 - sym.length) '_') ++ (e ++ [pc])) ++
        List.replicate 8 '0' := by
    rw [writeSeg_splice _ _ 6 (by simp [heLen]; omega)]
    have hregroup : sym ++ (List.replicate (6 - sym.length) '_' ++
        (['0', '0', '0', '0', '0', '0', 'X'] ++ List.replicate 8 '0')) =
        (sym ++ List.replicate (6 - sym.length) '_') ++
          (['0', '0', '0', '0', '0', '0', 'X'] ++ List.replicate 8 '0') := by
      simp
    rw [hregroup, List.take_left' hpadlen]
    have h13 : (6 : Nat) + (e ++ [pc]).length = (sym ++ List.replicate
        (6 - sym.length) '_').length + 7 := by
      simp [heLen]; omega
    rw [h13, List.drop_append, List.drop_left' (by rfl)]
  have hP1len : (sym ++ '_' :: (e ++ pc :: whole)).length =
      sym.length + 8 + whole.length := by
    simp only [List.length_append, List.length_cons, heLen]
    omega
  have hsplitP : sym ++ '_' :: (e ++ pc :: (whole ++ '.' :: [f0, f1])) =
      (sym ++ '_' :: (e ++ pc :: whole)) ++ '.' :: [f0, f1] := by
    simp
  have hdotpos : (sym ++ '_' :: (e ++ pc :: (whole ++ '.' :: [f0, f1]))).getD
      (sym.length + 8 + whole.length) '?' = '.' := by
    rw [hsplitP, List.getD_append_right _ _ _ _ (by rw [hP1len])]
    rw [hP1len]
    simp [List.getD]
  have hdot : findDotDown (sym ++ '_' :: (e ++ pc :: (whole ++ '.' :: [f0, f1])))
      ((sym ++ '_' :: (e ++ pc :: (whole ++ '.' :: [f0, f1]))).length - 2) =
      sym.length + 8 + whole.length := by
    have hlen_new : (sym ++ '_' :: (e ++ pc :: (whole ++ '.' :: [f0, f1]))).length =
        sym.length + whole.length + 11 := by
      simp only [List.length_append, List.length_cons, List.length_nil, heLen]
      omega
    rw [hlen_new]
    have hstart : sym.length + whole.length + 11 - 2 = sym.length + whole.length + 9 := by
      omega
    rw [hstart]
    apply findDotDown_spec _ _ hdotpos _ (by omega)
    intro k hk1 hk2
    have hksucc : k = sym.length + whole.length + 9 := by omega
    subst hksucc
    rw [hsplitP, List.getD_append_right _ _ _ _ (by rw [hP1len]; omega)]
    rw [hP1len]
    have h1 : sym.length + whole.length + 9 - (sym.length + 8 + whole.length) = 1 := by
      omega
    rw [h1]
    simpa [List.getD] using hf0
  have hseg3 : ((sym ++ '_' :: (e ++ pc :: (whole ++ '.' :: [f0, f1]))).drop
      (sym.length + 7 + 1)).take
      (sym.length + 8 + whole.length - 1 - (sym.length + 7)) = whole := by
    have hWeq : sym.length + 8 + whole.length - 1 - (sym.length + 7) =
        whole.length := by omega
    rw [hWeq]
    have hsplit3 : sym ++ '_' :: (e ++ pc :: (whole ++ '.' :: [f0, f1])) =
        (sym ++ '_' :: (e ++ [pc])) ++ (whole ++ '.' :: [f0, f1]) := by
      simp
    rw [hsplit3, List.drop_left' (by
      simp only [List.length_append, List.length_cons, List.length_nil, heLen]),
      List.take_left' rfl]
  have hO3 : writeSeg
      (((sym ++ List.replicate (6 - sym.length) '_') ++ (e ++ [pc])) ++
        List.replicate 8 '0')
      (18 - (sym.length + 8 + whole.length - 1 - (sym.length + 7))) whole =
      ((((sym ++ List.replicate (6 - sym.length) '_') ++ (e ++ [pc])) ++
        List.replicate (5 - whole.length) '0') ++ whole) ++ List.replicate 3 '0' := by
    have hWeq : sym.length + 8 + whole.length - 1 - (sym.length + 7) =
        whole.length := by omega
    rw [hWeq]
    have hpre13 : ((sym ++ List.replicate (6 - sym.length) '_') ++ (e ++ [pc])).length
        = 13 := by
      simp [heLen]; omega
    rw [writeSeg_splice _ _ _ (by simp [heLen]; omega)]
    rw [List.take_append_eq_append_take, hpre13]
    rw [List.take_of_length_le (by rw [hpre13]; omega), List.take_replicate]
    have hmin : (18 - whole.length - 13) ⊓ 8 = 5 - whole.length := by omega
    rw [hmin]
    have hd : (18 - whole.length : Nat) + whole.length =
        ((sym ++ List.replicate (6 - sym.length) '_') ++ (e ++ [pc])).length + 5 := by
      rw [hpre13]; omega
    rw [hd, List.drop_append, List.drop_replicate]
  have hfrac : (sym ++ '_' :: (e ++ pc :: (whole ++ '.' :: [f0, f1]))).length - 1 -
      (sym.length + 8 + whole.length + 1) = 1 := by
    simp only [List.length_append, List.length_cons, List.length_nil, heLen]
    omega
  have hseg4 : ((sym ++ '_' :: (e ++ pc :: (whole ++ '.' :: [f0, f1]))).drop
      (sym.length + 8 + whole.length + 1)).take 1 = [f0] := by
    have hsplit4 : sym ++ '_' :: (e ++ pc :: (whole ++ '.' :: [f0, f1])) =
        ((sym ++ '_' :: (e ++ pc :: whole)) ++ ['.']) ++ [f0, f1] := by
      simp
    rw [hsplit4, List.drop_left' (by simp [heLen]; omega)]
    rfl
  have hO4 : writeSeg
      (((((sym ++ List.replicate (6 - sym.length) '_') ++ (e ++ [pc])) ++
        List.replicate (5 - whole.length) '0') ++ whole) ++ List.replicate 3 '0')
      18 [f0] =
      sym ++ List.replicate (6 - sym.length) '_' ++ e ++ pc ::
        ((List.replicate (5 - whole.length) '0' ++ whole) ++ [f0, '0', '0']) := by
    have hpre18 : ((((sym ++ List.replicate (6 - sym.length) '_') ++ (e ++ [pc])) ++
        List.replicate (5 - whole.length) '0') ++ whole).length = 18 := by
      simp [heLen]; omega
    rw [writeSeg_splice _ _ 18 (by simp [heLen]; omega)]
    rw [List.take_left' hpre18]
    have h19 : (18 : Nat) + ([f0] : List Char).length =
        ((((sym ++ List.replicate (6 - sym.length) '_') ++ (e ++ [pc])) ++
          List.replicate (5 - whole.length) '0') ++ whole).length + 1 := by
      rw [hpre18]; rfl
    rw [h19, List.drop_append]
    simp [List.append_assoc]
  simp only [extractOldContractId]
  rw [h_tw, h_take_j, hO1, hseg2, hO2, hdot, hseg3, hO3, hfrac, hseg4, hO4]

theorem wholeOf_length_pos (w : List Char) : 1 ≤ (wholeOf w).length := by
  unfold wholeOf
  split
  · simp
  · rename_i h
    cases hh : goTrimLeftZero w with
    | nil => exact absurd hh h
    | cons a l => simp [hh]

theorem goTrimLeftZero_length_sum (w : List Char) :
    (List.takeWhile (fun c => decide (c = '0')) w).length +
      (goTrimLeftZero w).length = w.length := by
  unfold goTrimLeftZero
  have h := congrArg List.length
    (List.takeWhile_append_dropWhile (fun c => decide (c = '0')) w)
  rw [List.length_append] at h
  exact h

theorem wholeOf_length_le (w : List Char) (hwLen : w.length = 5) :
    (wholeOf w).length ≤ 5 := by
  have hsum := goTrimLeftZero_length_sum w
  unfold wholeOf
  split
  · simp
  · omega

/-- Undoing the leading-zero compression: padding the compressed integer part
back to five digits recovers the original digit string. -/
theorem wholeOf_reconstruct (w : List Char) (hwLen : w.length = 5) :
    List.replicate (5 - (wholeOf w).length) '0' ++ wholeOf w = w := by
  have hsum := goTrimLeftZero_length_sum w
  have happ := List.takeWhile_append_dropWhile (fun c => decide (c = '0')) w
  have htake : List.takeWhile (fun c => decide (c = '0')) w =
      List.replicate (List.takeWhile (fun c => decide (c = '0')) w).length '0' := by
    rw [List.eq_replicate_iff]
    refine ⟨rfl, fun b hb => ?_⟩
    have := List.mem_takeWhile_imp hb
    simpa using this
  unfold wholeOf
  split
  · rename_i h
    have hall : ∀ x ∈ w, x = '0' := by
      intro x hx
      have hd : goTrimLeftZero w = List.dropWhile (fun c => decide (c = '0')) w := rfl
      rw [hd] at h
      have := List.dropWhile_eq_nil_iff.1 h x hx
      simpa using this
    have hw5 : w = List.replicate 5 '0' :=
      List.eq_replicate_iff.2 ⟨hwLen, hall⟩
    rw [hw5]
    rfl
  · rename_i h
    have h5 : 5 - (goTrimLeftZero w).length =
        (List.takeWhile (fun c => decide (c = '0')) w).length := by omega
    rw [h5]
    have hd : goTrimLeftZero w = List.dropWhile (fun c => decide (c = '0')) w := rfl
    rw [hd, ← htake]
    exact happ

/-- C2 counterexample artifact: a valid OPRA id whose strike fraction is
`125`; the codec round-trip corrupts it to `120`. -/
def c2CounterId : List Char := "AAPL__240119C00150125".toList

/-- c2: The round-trip `extractOldContractId ∘ convertOldContractIdToNew` is
not the identity on all valid 21-byte OPRA ids: on
`AAPL__240119C00150125` it yields `AAPL__240119C00150120`, because the
fraction-copying loop of `extractOldContractId` stops one byte short of the
end of the new-format id. -/
theorem c2_roundtrip_counterexample :
    extractOldContractId (convertOldContractIdToNew c2CounterId) =
      "AAPL__240119C00150120".toList ∧
    extractOldContractId (convertOldContractIdToNew c2CounterId) ≠ c2CounterId := by
  constructor
  · decide
  · decide

/-- c2 (amended): for every valid 21-byte OPRA id whose strike-fraction's
last two digits are both `'0'` (shape `SSSSSSYYMMDDTNNNNNd00`, ticker without
underscore or dot, no dot anywhere), converting to the new textual format and
back yields the original identifier. -/
theorem c2_roundtrip_amended (sym e w : List Char) (pc f0 : Char)
    (hL : sym.length ≤ 6) (hU : ∀ c ∈ sym, c ≠ '_')
    (hsymD : ∀ c ∈ sym, c ≠ '.') (heLen : e.length = 6)
    (heD : ∀ c ∈ e, c ≠ '.') (hwLen : w.length = 5) (hwD : ∀ c ∈ w, c ≠ '.')
    (hpc : pc ≠ '.') (hf0 : f0 ≠ '.') :
    extractOldContractId (convertOldContractIdToNew (oldIdOf sym e pc w f0 '0' '0')) =
      oldIdOf sym e pc w f0 '0' '0' := by
  rw [convert_on_valid sym e w pc f0 '0' hL hU hsymD heLen heD hwLen hwD hpc hf0
    (by decide)]
  rw [extract_on_new sym e (wholeOf w) pc f0 '0' hL hU heLen
    (wholeOf_length_pos w) (wholeOf_length_le w hwLen) hf0]
  rw [wholeOf_reconstruct w hwLen]
  simp [oldIdOf]

/-- c2 (amended) witness: the round-trip at the concrete id
`AAPL__240119C00150100`. -/
theorem c2_roundtrip_amended_witness :
    extractOldContractId (convertOldContractIdToNew
      (oldIdOf "AAPL".toList "240119".toList 'C' "00150".toList '1' '0' '0')) =
      oldIdOf "AAPL".toList "240119".toList 'C' "00150".toList '1' '0' '0' :=
  c2_roundtrip_amended "AAPL".toList "240119".toList "00150".toList 'C' '1'
    (by decide) (by decide) (by decide) (by decide) (by decide) (by decide)
    (by decide) (by decide) (by decide)

/-- C1/C6 concrete artifact: the 21-byte contract id used in the scenarios. -/
def aaplContractId : List Char := "AAPL__240119C00150000".toList

/-- An options trade for `aaplContractId` carrying only a timestamp (all other
fields zero). -/
def mkAaplTrade (ts : ℚ) : OptionTrade :=
  ⟨aaplContractId, 0, 0, 0, (0, 0, 0, 0), 0, 0, 0, 0, ts⟩

/-- A fresh cache with only the `optionsTradeUpdated` observer registered. -/
def c1Cache : DataCache :=
  NewDataCache false false false false false false true false false false false false

/-- c1: Delivering an options trade with ts=100 to a fresh cache via
`dataCache.SetOptionsTrade` is accepted and schedules the registered
`optionsTradeUpdated` observer TWICE (once inside
`optionsContractData.SetTradeWithCallback` and once more inside
`securityData.SetOptionsContractTradeWithCallback`), not once; a subsequent
ts=90 trade for the same contract returns false, schedules no observer, and
leaves the cached latest trade at the ts=100 record. -/
theorem c1_trade_callback_fires_twice :
    (c1Cache.SetOptionsTrade (some (mkAaplTrade 100))).1 = true ∧
    (c1Cache.SetOptionsTrade (some (mkAaplTrade 100))).2.2 = 2 ∧
    ((c1Cache.SetOptionsTrade (some (mkAaplTrade 100))).2.1.SetOptionsTrade
      (some (mkAaplTrade 90))).1 = false ∧
    ((c1Cache.SetOptionsTrade (some (mkAaplTrade 100))).2.1.SetOptionsTrade
      (some (mkAaplTrade 90))).2.2 = 0 ∧
    ((c1Cache.SetOptionsTrade (some (mkAaplTrade 100))).2.1.SetOptionsTrade
      (some (mkAaplTrade 90))).2.1.GetLatestOptionsTrade "AAPL".toList
      aaplContractId = some (mkAaplTrade 100) := by
  refine ⟨rfl, rfl, ?_, ?_, ?_⟩ <;> decide

/-- c5: On the one-byte buffer `[0x01]` (record count 1, body truncated) both
batch parsers index past the end of the buffer — a Go runtime panic, modelled
as `none` — instead of logging and dropping; the empty buffer panics on the
count read itself, while a zero-count buffer is handled. -/
theorem c5_parsers_panic_on_truncated :
    workOnEquities [1] = none ∧ workOnOptions [1] = none ∧
    workOnEquities [] = none ∧ workOnOptions [] = none ∧
    workOnEquities [0] = some [] ∧ workOnOptions [0] = some [] := by
  refine ⟨?_, ?_, ?_, ?_, ?_, ?_⟩ <;> decide

/-- c8: The reconnection backoff follows the fixed schedule 10, 30, 60, 300,
600 s, one step per consecutive failure: with a dial stub failing 5 times then
succeeding, the sleeps are exactly 10, 30, 60, 300, 600 (first sleep after the
first failure) and the successful connect is the 6th call; the schedule
saturates at 600 under further failures, no sleep happens when the first
attempt succeeds, and every fresh `doBackoff` run restarts at 10. -/
theorem c8_backoff_schedule :
    doBackoffSleeps [false, false, false, false, false, true] =
      [10, 30, 60, 300, 600] ∧
    doBackoffCallCount [false, false, false, false, false, true] = 6 ∧
    doBackoffSleeps (List.replicate 7 false ++ [true]) =
      [10, 30, 60, 300, 600, 600, 600] ∧
    doBackoffSleeps [true] = [] ∧
    doBackoffSleeps [false, true] = [10] := by
  refine ⟨?_, ?_, ?_, ?_, ?_⟩ <;> decide

/-- c4 counterexample: with both the trade and quote timestamps zero and the
contract expiring 2024-01-19 (Unix 1705640400), the Greek client computes
the expiration against Go's zero time.Time; the ≈2023-year span overflows
`time.Duration`, `Sub` saturates at `2^63 − 1` ns, and the result is
(2^63 − 1)/10^9/31557600 ≈ 292.27 years — differing from the claimed
`max(0, expiration − now)/31557600` for the current time (taken as Unix
1700000000, ≈ 0.18 years; the two disagree for every current time after the
epoch). -/
theorem c4_years_counterexample :
    greekGetYearsToExpiration 1705640400 0 none =
      9223372036854775807 / 31557600000000000 ∧
    specYearsToExpiration 1700000000 1705640400 0 none =
      5640400 / 31557600 ∧
    greekGetYearsToExpiration 1705640400 0 none ≠
      specYearsToExpiration 1700000000 1705640400 0 none := by
  refine ⟨?_, ?_, ?_⟩ <;>
    norm_num [greekGetYearsToExpiration, specYearsToExpiration, goZeroTimeUnixSec,
      goTimeSubSec, goMaxDurationSec, goMinDurationSec]

/-- c4 (amended): the Greek client's years-to-expiration uses as "now" the
larger of the latest option-trade timestamp and the latest option-quote
timestamp, falling back to Go's ZERO `time.Time` (0001-01-01 UTC,
−62,135,596,800 s from the Unix epoch) — not the current time — when that
timestamp is zero, and returns
`max 0 (durationSaturated (expiration − now)) / 31_557_600`, where the span
is clamped to the `time.Duration` range (±2^63 ns); the clamp is what the
fallback case actually returns (≈ 292.27 years). -/
theorem c4_years_to_expiration_amended (expirationSec tradeTimestamp : ℚ)
    (quoteTimestamp : Option ℚ) :
    greekGetYearsToExpiration expirationSec tradeTimestamp quoteTimestamp =
      specYearsToExpirationAmended expirationSec tradeTimestamp quoteTimestamp := by
  have hdiv : ∀ diff : ℚ,
      (if diff ≤ 0 then (0 : ℚ) else diff / 31557600) = max 0 diff / 31557600 := by
    intro diff
    split_ifs with h
    · rw [max_eq_left h, zero_div]
    · rw [max_eq_right (le_of_lt (not_le.mp h))]
  have hmax : ∀ a b : ℚ, (if a < b then b else a) = max a b := by
    intro a b
    rcases le_or_lt b a with h | h
    · rw [if_neg (not_lt.mpr h), max_eq_left h]
    · rw [if_pos h, max_eq_right (le_of_lt h)]
  unfold greekGetYearsToExpiration specYearsToExpirationAmended
  cases quoteTimestamp with
  | none =>
    simp only
    rw [hdiv]
    by_cases h0 : tradeTimestamp = 0
    · simp [h0]
    · simp [h0]
  | some qts =>
    simp only
    rw [hmax, hdiv]
    by_cases h0 : max tradeTimestamp qts = 0
    · simp [h0]
    · simp [h0]

/-- c6: `BlackScholesGreekCalculator.Calculate` returns the invalid Greek
(all five components zero, isValid false) whenever
`ask ≤ 0 ∨ bid ≤ 0 ∨ r ≤ 0 ∨ S ≤ 0 ∨ T ≤ 0 ∨ K ≤ 0`, and under the
negation of all these conditions it takes the non-short-circuit branch with
exactly the gated values. -/
theorem c6_calculate_gate (r q S ask bid : ℚ) (contract : List Char) (T : ℚ) :
    ((ask ≤ 0 ∨ bid ≤ 0 ∨ r ≤ 0 ∨ S ≤ 0 ∨ T ≤ 0 ∨ bsGetStrikePrice contract ≤ 0) →
      bsCalculate r q S ask bid contract T =
        .shortCircuit (NewGreek 0 0 0 0 0 false)) ∧
    (¬(ask ≤ 0 ∨ bid ≤ 0 ∨ r ≤ 0 ∨ S ≤ 0 ∨ T ≤ 0 ∨ bsGetStrikePrice contract ≤ 0) →
      bsCalculate r q S ask bid contract T =
        .proceed (bsIsPut contract) S (bsGetStrikePrice contract) T r q
          ((ask + bid) / 2)) := by
  simp only [bsCalculate]
  constructor
  · intro h
    split_ifs with h1 h2
    · rfl
    · rfl
    · exfalso
      push_neg at h1 h2
      rcases h with h | h | h | h | h | h
      · exact absurd h (not_le.mpr h1.1)
      · exact absurd h (not_le.mpr h1.2.1)
      · exact absurd h (not_le.mpr h1.2.2.1)
      · exact absurd h (not_le.mpr h1.2.2.2)
      · exact absurd h (not_le.mpr h2.1)
      · exact absurd h (not_le.mpr h2.2)
  · intro h
    push_neg at h
    rw [if_neg, if_neg]
    · push_neg
      exact ⟨h.2.2.2.2.1, h.2.2.2.2.2⟩
    · push_neg
      exact ⟨h.1, h.2.1, h.2.2.1, h.2.2.2.1⟩

/-- c6 witness: with positive inputs and the `AAPL__240119C00150000`
contract (strike 150) the non-short-circuit branch is taken; zeroing the ask
short-circuits to the invalid Greek. -/
theorem c6_calculate_gate_witness :
    bsCalculate (1/25) 0 190 6 5 aaplContractId 1 =
      .proceed false 190 150 1 (1/25) 0 (11/2) ∧
    bsCalculate (1/25) 0 190 0 5 aaplContractId 1 =
      .shortCircuit (NewGreek 0 0 0 0 0 false) := by
  have hstrike : bsGetStrikePrice aaplContractId = 150 := by
    unfold bsGetStrikePrice
    rw [if_neg (by decide)]
    norm_num [(by decide :
        (aaplContractId.drop 13).take 6 = ['0', '0', '1', '5', '0', '0']),
      (by decide : charDigitByte '0' = 0), (by decide : charDigitByte '1' = 1),
      (by decide : charDigitByte '5' = 5), List.getD]
  have hput : bsIsPut aaplContractId = false := by decide
  constructor
  · have h := (c6_calculate_gate (1/25) 0 190 6 5 aaplContractId 1).2
    rw [hstrike, hput] at h
    have hres := h (by push_neg; norm_num)
    have h65 : ((6 : ℚ) + 5) / 2 = 11 / 2 := by norm_num
    rw [h65] at hres
    exact hres
  · exact (c6_calculate_gate (1/25) 0 190 0 5 aaplContractId 1).1 (by norm_num)

/-- C7 concrete artifacts: a cache with all observers registered and the key
`"RiskFreeInterestRate"`. -/
def c7Cache : DataCache :=
  NewDataCache true true true true true true true true true true true true

/-- The supplementary key used in the C7 scenario. -/
def riskFreeKey : List Char := "RiskFreeInterestRate".toList

/-- The cache after committing the pointer `(addr 1, value 5)` under
`riskFreeKey`. -/
def c7AfterFirst : DataCache :=
  (c7Cache.SetSupplementaryDatum riskFreeKey (some ⟨1, 5⟩)
    defaultSupplementalDatumUpdate).2.1

/-- c7 counterexample: with the default merge, writing a SECOND, distinct
pointer to the SAME value 5 is accepted (returns true) and replaces the
stored pointer — the cache compares pointers, not values, so a
value-identical set is not a no-op as claimed. -/
theorem c7_value_identity_counterexample :
    c7AfterFirst.supplementaryData riskFreeKey = some ⟨1, 5⟩ ∧
    (c7AfterFirst.SetSupplementaryDatum riskFreeKey (some ⟨2, 5⟩)
      defaultSupplementalDatumUpdate).1 = true ∧
    (c7AfterFirst.SetSupplementaryDatum riskFreeKey (some ⟨2, 5⟩)
      defaultSupplementalDatumUpdate).2.1.supplementaryData riskFreeKey =
      some ⟨2, 5⟩ := by
  refine ⟨?_, ?_, ?_⟩ <;> decide

/-- c7 (amended): the cache compares the merged pointer to the committed old
pointer by POINTER identity: with the default merge, a set is a no-op
returning false exactly when the datum is the same pointer as the committed
one; otherwise the datum becomes the committed value, so the final cache
entry is the last pointer passed that differs (as a pointer) from the
previously committed one. -/
theorem c7_supplementary_pointer_identity (d : DataCache) (key : List Char)
    (datum : Option FloatPtr) :
    ((d.SetSupplementaryDatum key datum defaultSupplementalDatumUpdate).1 = false ↔
      goPtrEq datum (d.supplementaryData key) = true) ∧
    ((d.SetSupplementaryDatum key datum defaultSupplementalDatumUpdate).1 = false →
      (d.SetSupplementaryDatum key datum defaultSupplementalDatumUpdate).2.1 = d) ∧
    ((d.SetSupplementaryDatum key datum defaultSupplementalDatumUpdate).1 = true →
      (d.SetSupplementaryDatum key datum
        defaultSupplementalDatumUpdate).2.1.supplementaryData key = datum) := by
  simp only [DataCache.SetSupplementaryDatum, defaultSupplementalDatumUpdate]
  by_cases h : goPtrEq datum (d.supplementaryData key) = true
  · rw [if_pos h]
    exact ⟨by simp [h], fun _ => rfl, by simp⟩
  · rw [if_neg h]
    refine ⟨by simpa using h, by simp, fun _ => ?_⟩
    simp

/-- c7 (amended) witness: committing `(addr 1, 5)` to the fresh cache returns
true and stores the pointer. -/
theorem c7_supplementary_pointer_identity_witness :
    (c7Cache.SetSupplementaryDatum riskFreeKey (some ⟨1, 5⟩)
      defaultSupplementalDatumUpdate).2.1.supplementaryData riskFreeKey =
      some ⟨1, 5⟩ :=
  (c7_supplementary_pointer_identity c7Cache riskFreeKey (some ⟨1, 5⟩)).2.2
    (by decide)

theorem setTrade_accept_iff (o : OptionsContractData) (t : Option OptionTrade) :
    (o.SetTrade t).1 = true ↔
      o.latestTrade = none ∨
        ∃ tr pr, t = some tr ∧ o.latestTrade = some pr ∧
          pr.Timestamp < tr.Timestamp := by
  rcases ho : o.latestTrade with _ | pr <;> rcases ht : t with _ | tr <;>
    simp [OptionsContractData.SetTrade, ho, ht]
  split_ifs with hc <;> simp [hc]

theorem setTrade_replace (o : OptionsContractData) (t : Option OptionTrade)
    (h : (o.SetTrade t).1 = true) : (o.SetTrade t).2.latestTrade = t := by
  simp only [OptionsContractData.SetTrade] at h ⊢
  split_ifs at h ⊢
  rfl

theorem setQuote_accept_iff (o : OptionsContractData) (q : Option OptionQuote) :
    (o.SetQuote q).1 = true ↔
      o.latestQuote = none ∨
        ∃ qr pr, q = some qr ∧ o.latestQuote = some pr ∧
          pr.Timestamp < qr.Timestamp := by
  rcases ho : o.latestQuote with _ | pr <;> rcases hq : q with _ | qr <;>
    simp [OptionsContractData.SetQuote, ho, hq]
  split_ifs with hc <;> simp [hc]

theorem setQuote_replace (o : OptionsContractData) (q : Option OptionQuote)
    (h : (o.SetQuote q).1 = true) : (o.SetQuote q).2.latestQuote = q := by
  simp only [OptionsContractData.SetQuote] at h ⊢
  split_ifs at h ⊢
  rfl

theorem setUA_accept_iff (o : OptionsContractData)
    (u : Option OptionsUnusualActivity) :
    (o.SetUnusualActivity u).1 = true ↔
      o.latestUnusualActivity = none ∨
        ∃ ur pr, u = some ur ∧ o.latestUnusualActivity = some pr ∧
          pr.Timestamp < ur.Timestamp := by
  rcases ho : o.latestUnusualActivity with _ | pr <;> rcases hu : u with _ | ur <;>
    simp [OptionsContractData.SetUnusualActivity, ho, hu]
  split_ifs with hc <;> simp [hc]

theorem setUA_replace (o : OptionsContractData) (u : Option OptionsUnusualActivity)
    (h : (o.SetUnusualActivity u).1 = true) :
    (o.SetUnusualActivity u).2.latestUnusualActivity = u := by
  simp only [OptionsContractData.SetUnusualActivity] at h ⊢
  split_ifs at h ⊢
  rfl

/-- c3: For the trade, quote and unusual-activity slots of an options
contract, a set is accepted (returns true, and then the stored record is
replaced) only when the slot is empty or the new record's timestamp strictly
exceeds the stored one — so two successive accepted record writes have
strictly increasing timestamps — while `SetRefresh` always overwrites the
stored refresh and returns true. -/
theorem c3_latest_slot_gates (o : OptionsContractData) (t : Option OptionTrade)
    (q : Option OptionQuote) (u : Option OptionsUnusualActivity)
    (rf : Option OptionRefresh) :
    ((o.SetTrade t).1 = true ↔
      o.latestTrade = none ∨
        ∃ tr pr, t = some tr ∧ o.latestTrade = some pr ∧
          pr.Timestamp < tr.Timestamp) ∧
    ((o.SetTrade t).1 = true → (o.SetTrade t).2.latestTrade = t) ∧
    ((o.SetQuote q).1 = true ↔
      o.latestQuote = none ∨
        ∃ qr pr, q = some qr ∧ o.latestQuote = some pr ∧
          pr.Timestamp < qr.Timestamp) ∧
    ((o.SetQuote q).1 = true → (o.SetQuote q).2.latestQuote = q) ∧
    ((o.SetUnusualActivity u).1 = true ↔
      o.latestUnusualActivity = none ∨
        ∃ ur pr, u = some ur ∧ o.latestUnusualActivity = some pr ∧
          pr.Timestamp < ur.Timestamp) ∧
    ((o.SetUnusualActivity u).1 = true →
      (o.SetUnusualActivity u).2.latestUnusualActivity = u) ∧
    ((o.SetRefresh rf).1 = true ∧ (o.SetRefresh rf).2.latestRefresh = rf) ∧
    (∀ tr1 tr2 : OptionTrade, (o.SetTrade (some tr1)).1 = true →
      ((o.SetTrade (some tr1)).2.SetTrade (some tr2)).1 = true →
      tr1.Timestamp < tr2.Timestamp) := by
  refine ⟨setTrade_accept_iff o t, setTrade_replace o t,
    setQuote_accept_iff o q, setQuote_replace o q,
    setUA_accept_iff o u, setUA_replace o u, ⟨rfl, rfl⟩, ?_⟩
  intro tr1 tr2 h1 h2
  have hmid : (o.SetTrade (some tr1)).2.latestTrade = some tr1 :=
    setTrade_replace o (some tr1) h1
  have h2' := (setTrade_accept_iff (o.SetTrade (some tr1)).2 (some tr2)).1 h2
  rw [hmid] at h2'
  rcases h2' with h | ⟨tr', pr', htr', hpr', hlt⟩
  · exact absurd h (by simp)
  · rw [Option.some_inj] at htr' hpr'
    rw [← htr', ← hpr'] at hlt
    exact hlt

/-- c3 witness: a concrete empty contract entry accepts a ts=1 trade and
stores it. -/
theorem c3_latest_slot_gates_witness :
    ((NewOptionsContractData aaplContractId).SetTrade
      (some (mkAaplTrade 1))).2.latestTrade = some (mkAaplTrade 1) :=
  (c3_latest_slot_gates (NewOptionsContractData aaplContractId)
    (some (mkAaplTrade 1)) none none none).2.1 (by decide)

/-- The bisection loop exits with a bracket no wider than the tolerance. -/
theorem bisectRun_width (p : ℚ → Bool) (low high : ℚ) :
    (bisectRun p low high).2.1 - (bisectRun p low high).1 ≤ volTolerance := by
  induction low, high using bisectRun.induct p with
  | case1 low high h =>
    rw [bisectRun, dif_pos h]
    exact h
  | case2 low high h mid hp ih =>
    rw [bisectRun, dif_neg h]
    simp only [hp, if_true]
    exact ih
  | case3 low high h mid hp ih =>
    rw [bisectRun, dif_neg h]
    simp only [hp, if_false]
    exact ih

/-- The bisection loop runs at most `n` iterations when the initial width is
at most `volTolerance * 2^n`. -/
theorem bisectRun_steps (n : Nat) :
    ∀ (p : ℚ → Bool) (low high : ℚ), high - low ≤ volTolerance * 2 ^ n →
    (bisectRun p low high).2.2 ≤ n := by
  induction n with
  | zero =>
    intro p low high hw
    rw [bisectRun, dif_pos (by simpa using hw)]
  | succ m ih =>
    intro p low high hw
    by_cases h : high - low ≤ volTolerance
    · rw [bisectRun, dif_pos h]
      simp
    · rw [bisectRun, dif_neg h]
      have hhalf1 : (high + low) / 2 - low = (high - low) / 2 := by ring
      have hhalf2 : high - (high + low) / 2 = (high - low) / 2 := by ring
      have hbound : (high - low) / 2 ≤ volTolerance * 2 ^ m := by
        rw [pow_succ] at hw
        linarith
      by_cases hp : p ((high + low) / 2) = true
      · rw [if_pos hp]
        have := ih p low ((high + low) / 2) (by rw [hhalf1]; exact hbound)
        show (bisectRun p low ((high + low) / 2)).2.2 + 1 ≤ m + 1
        omega
      · rw [if_neg hp]
        have := ih p ((high + low) / 2) high (by rw [hhalf2]; exact hbound)
        show (bisectRun p ((high + low) / 2) high).2.2 + 1 ≤ m + 1
        omega

/-- c9: the implied-volatility solvers are a bisection on `[0, 5]` driven by
the predicate `model price at the midpoint > market price`: for every model
price function and market price, the loop performs at most 16 iterations,
stops with `high − low ≤ 1e-4`, and both the call and put solvers return the
final bracket's midpoint. -/
theorem c9_bisection_solver (priceOf : ℚ → ℚ) (marketPrice : ℚ) :
    (bisectRun (fun mid => decide (priceOf mid > marketPrice))
      lowVol highVol).2.2 ≤ 16 ∧
    (bisectRun (fun mid => decide (priceOf mid > marketPrice))
      lowVol highVol).2.1 -
      (bisectRun (fun mid => decide (priceOf mid > marketPrice))
        lowVol highVol).1 ≤ volTolerance ∧
    calcImpliedVolatilityCall priceOf marketPrice =
      ((bisectRun (fun mid => decide (priceOf mid > marketPrice))
        lowVol highVol).2.1 +
       (bisectRun (fun mid => decide (priceOf mid > marketPrice))
        lowVol highVol).1) / 2 ∧
    calcImpliedVolatilityPut priceOf marketPrice =
      ((bisectRun (fun mid => decide (priceOf mid > marketPrice))
        lowVol highVol).2.1 +
       (bisectRun (fun mid => decide (priceOf mid > marketPrice))
        lowVol highVol).1) / 2 := by
  refine ⟨?_, bisectRun_width _ _ _, rfl, rfl⟩
  apply bisectRun_steps 16
  norm_num [lowVol, highVol, volTolerance]

/-- c10: every cache-level event setter given a nil event, and every options
event setter given a contract identifier shorter than 6 characters (no
underlying ticker can be extracted), returns false, leaves the cache
unchanged, and schedules no observer callback. -/
theorem c10_nil_and_short_contract_noop (d : DataCache)
    (t : OptionTrade) (q : OptionQuote) (rf : OptionRefresh)
    (u : OptionsUnusualActivity) (tc : OptionsTradeCandleStick)
    (qc : OptionsQuoteCandleStick)
    (ht : t.ContractId.length < 6) (hq : q.ContractId.length < 6)
    (hrf : rf.ContractId.length < 6) (hu : u.Contract.length < 6)
    (htc : tc.Contract.length < 6) (hqc : qc.Contract.length < 6) :
    d.SetOptionsTrade none = (false, d, 0) ∧
    d.SetOptionsQuote none = (false, d, 0) ∧
    d.SetOptionsRefresh none = (false, d, 0) ∧
    d.SetOptionsUnusualActivity none = (false, d, 0) ∧
    d.SetOptionsTradeCandleStick none = (false, d, 0) ∧
    d.SetOptionsQuoteCandleStick none = (false, d, 0) ∧
    d.SetEquityTrade none = (false, d, 0) ∧
    d.SetEquityQuote none = (false, d, 0) ∧
    d.SetEquityTradeCandleStick none = (false, d, 0) ∧
    d.SetEquityQuoteCandleStick none = (false, d, 0) ∧
    d.SetOptionsTrade (some t) = (false, d, 0) ∧
    d.SetOptionsQuote (some q) = (false, d, 0) ∧
    d.SetOptionsRefresh (some rf) = (false, d, 0) ∧
    d.SetOptionsUnusualActivity (some u) = (false, d, 0) ∧
    d.SetOptionsTradeCandleStick (some tc) = (false, d, 0) ∧
    d.SetOptionsQuoteCandleStick (some qc) = (false, d, 0) := by
  refine ⟨rfl, rfl, rfl, rfl, rfl, rfl, rfl, rfl, rfl, rfl, ?_, ?_, ?_, ?_, ?_, ?_⟩
  · simp [DataCache.SetOptionsTrade, extractTickerFromContract, ht]
  · simp [DataCache.SetOptionsQuote, extractTickerFromContract, hq]
  · simp [DataCache.SetOptionsRefresh, extractTickerFromContract, hrf]
  · simp [DataCache.SetOptionsUnusualActivity, extractTickerFromContract, hu]
  · simp [DataCache.SetOptionsTradeCandleStick, extractTickerFromContract, htc]
  · simp [DataCache.SetOptionsQuoteCandleStick, extractTickerFromContract, hqc]

/-- c10 witness: a trade whose contract id is the 2-byte string `AB`
delivered to a concrete cache with every observer registered is rejected
without mutating the cache or scheduling a callback. -/
theorem c10_nil_and_short_contract_noop_witness :
    c7Cache.SetOptionsTrade
      (some ⟨['A', 'B'], 0, 0, 0, (0, 0, 0, 0), 0, 0, 0, 0, 100⟩) =
      (false, c7Cache, 0) :=
  (c10_nil_and_short_contract_noop c7Cache
    ⟨['A', 'B'], 0, 0, 0, (0, 0, 0, 0), 0, 0, 0, 0, 100⟩
    ⟨['A', 'B'], 0, 0, 0, 0, 0⟩ ⟨['A', 'B'], 0, 0, 0, 0, 0⟩
    ⟨['A', 'B'], [], [], [], 0, 0, 0, 0⟩
    ⟨['A', 'B'], [], 0, 0, 0, 0, 0, 0, []⟩
    ⟨['A', 'B'], [], [], 0, 0, 0, 0, 0, 0, []⟩
    (by decide) (by decide) (by decide) (by decide) (by decide)
    (by decide)).2.2.2.2.2.2.2.2.2.2.1
